import Mathlib

/-!
# LadrillosJS core — shallow embedding and verification

This file embeds the current revision of the LadrillosJS component runtime
(`src/core/webcomponent.js`, `src/core/reactivity.js`, `src/core/main.js`)
as Lean definitions and proves or refutes the frozen specification claims.

Conventions:
* JavaScript values occurring in the claims are modelled by `JSValue`
  (primitives plus an opaque function identity `fn`).
* Per-instance reactive state is an association list `List (String × JSValue)`
  with last-write-wins insertion, mirroring a plain JS object.
* Render triggering is counted by a `renderCount` field: each call the code
  makes to `this._render()` increments it by one.
-/

namespace Ladrillos

/-- JavaScript runtime values, as far as the claims need them.
`fn id` is an opaque function value identified by `id`. -/
inductive JSValue where
  | null
  | undefVal
  | bool (b : Bool)
  | num (n : Int)
  | str (s : String)
  | fn (id : Nat)
  deriving DecidableEq, Repr

/-- JS truthiness coercion (`if (v)`).  `null`, `undefined`, `false`, `0`
and the empty string are falsy; functions and everything else are truthy. -/
def truthy : JSValue → Bool
  | .null => false
  | .undefVal => false
  | .bool b => b
  | .num n => n != 0
  | .str s => s ≠ ""
  | .fn _ => true

/-- JS nullish test, used by the `??` operator. -/
def nullish : JSValue → Bool
  | .null => true
  | .undefVal => true
  | _ => false

/-- Association-list lookup: `obj[key]` on a JS object modelled as a list. -/
def lookupKey {α : Type} (m : List (String × α)) (k : String) : Option α :=
  match m with
  | [] => none
  | (k', v) :: rest => if k' = k then some v else lookupKey rest k

/-- Association-list write: `obj[key] = v` (overwrites in place or appends). -/
def setKey {α : Type} (m : List (String × α)) (k : String) (v : α) :
    List (String × α) :=
  match m with
  | [] => [(k, v)]
  | (k', v') :: rest =>
      if k' = k then (k', v) :: rest else (k', v') :: setKey rest k v

/-! Small string helpers shared by the embedding (all over `List Char`,
which — unlike several `String` primitives — evaluates inside the
kernel). -/

/-- Literal-prefix test. -/
def startsWithLit : List Char → List Char → Bool
  | [], _ => true
  | _ :: _, [] => false
  | p :: ps, c :: cs => p = c && startsWithLit ps cs

/-- `includes`: does `sub` occur anywhere in `l`? -/
def containsSub (sub : List Char) : List Char → Bool
  | [] => sub = []
  | c :: cs => startsWithLit sub (c :: cs) || containsSub sub cs

/-- `endsWith`. -/
def endsWithLit (suffix l : List Char) : Bool :=
  startsWithLit suffix.reverse l.reverse

/-- JS `String.prototype.trim`. -/
def trimChars (l : List Char) : List Char :=
  ((l.dropWhile Char.isWhitespace).reverse.dropWhile Char.isWhitespace).reverse

/-- `split(sep)` on a single-character separator. -/
def splitOnChar (sep : Char) (l : List Char) : List (List Char) :=
  l.foldr
    (fun c (acc : List (List Char)) =>
      match acc with
      | [] => if c = sep then [[], []] else [[c]]
      | cur :: rest => if c = sep then [] :: (cur :: rest) else (c :: cur) :: rest)
    [[]]

/-- `a.replace(b, c)` with a plain-string pattern: first occurrence only. -/
def firstReplace (pat repl : List Char) : List Char → List Char
  | [] => if pat = [] then repl else []
  | c :: cs =>
      if startsWithLit pat (c :: cs) then
        repl ++ (c :: cs).drop pat.length
      else c :: firstReplace pat repl cs

/-! ## Component instance: state proxy (webcomponent.js lines 29–44)

The constructor installs a `Proxy` around the internal state object whose
`set` trap stores the value and then unconditionally calls `this._render()`:

```js
this.state = new Proxy(internalState, {
  set: (target, prop, value) => {
    target[prop] = value;
    // automatically re-render on any direct assignment
    this._render();
    return true;
  },
});
```
-/

/-- A component instance, reduced to the parts the state claims observe:
its state map and how many render passes have been triggered. -/
structure Component where
  state : List (String × JSValue)
  renderCount : Nat
  deriving DecidableEq, Repr

/-- The state proxy `set` trap: commit the write, then always render. -/
def proxySet (c : Component) (k : String) (v : JSValue) : Component :=
  { c with state := setKey c.state k v, renderCount := c.renderCount + 1 }

/-! ## The standalone reactive helper (reactivity.js lines 9–27)

```js
set(target, property, value) {
  const oldValue = target[property];
  target[property] = value;
  // Only trigger callback if value actually changed
  if (oldValue !== value && callback) {
    callback(property.toString(), value, oldValue);
  }
  return true;
}
```
Reading an absent property yields `undefined`. -/

/-- `reactive()`'s set trap: returns the updated target and whether the
change callback fired. -/
def reactiveSet (target : List (String × JSValue)) (k : String) (v : JSValue) :
    List (String × JSValue) × Bool :=
  let oldValue := (lookupKey target k).getD .undefVal
  (setKey target k v, oldValue ≠ v)

/-! ## setState (webcomponent.js lines 1220–1223)

```js
setState(partial) {
  Object.assign(this.state, partial);
  this._render();
}
```
`Object.assign` copies each own enumerable key of the argument onto the proxy,
so the proxy `set` trap — and with it `_render()` — runs once per key,
followed by the explicit `_render()` call. -/

/-- `setState`: assign every pair of `pairs` through the state proxy
(in order), then one more explicit render. -/
def setState (c : Component) (pairs : List (String × JSValue)) : Component :=
  let c' := pairs.foldl (fun acc kv => proxySet acc kv.1 kv.2) c
  { c' with renderCount := c'.renderCount + 1 }

/-! ## Attribute parsing (webcomponent.js lines 46–54, 120–132)

```js
static #parseAttributeValue(raw) {
  if (raw === "") return null;
  if (raw === "undefined") return undefined;
  try {
    return JSON.parse(raw);
  } catch {
    return raw;
  }
}
```
`JSON.parse` is a host primitive; it is passed in as `jsonParse`, a possibly
failing parsing function (`none` models a thrown `SyntaxError`). -/

/-- `#parseAttributeValue`: empty string to `null`, the literal string
`"undefined"` to `undefined`, then `JSON.parse` with fallback to the raw
string. Total for every input. -/
def parseAttributeValue (jsonParse : String → Option JSValue) (raw : String) :
    JSValue :=
  if raw = "" then .null
  else if raw = "undefined" then .undefVal
  else
    match jsonParse raw with
    | some v => v
    | none => .str raw

/-- `_handleAttributeChange` first strips a `this.state.` name prefix:

```js
const STATE_PREFIX = "this.state.";
if (name.startsWith(STATE_PREFIX)) { name = name.slice(STATE_PREFIX.length); }
```
-/
def stripStateKey (name : String) : String :=
  if startsWithLit "this.state.".toList name.toList then name.drop 11 else name

/-- `_handleAttributeChange(name, raw)`: parse the raw attribute string,
store it in state through the proxy (which renders), then render again
explicitly (`this.state[name] = value; this._render();`). -/
def handleAttributeChange (jsonParse : String → Option JSValue) (c : Component)
    (name raw : String) : Component :=
  let c' := proxySet c (stripStateKey name) (parseAttributeValue jsonParse raw)
  { c' with renderCount := c'.renderCount + 1 }

/-- A concrete model of the fragment of `JSON.parse` the claims exercise:
integer numerals (optionally negative), `true`, `false`, `null`, and
double-quoted strings without escapes. Anything else throws (`none`). -/
def jsonParseModel (s : String) : Option JSValue :=
  let cs := s.toList
  let digitsToNat : List Char → Nat := fun ds =>
    ds.foldl (fun acc c => acc * 10 + (c.toNat - 48)) 0
  if s = "true" then some (.bool true)
  else if s = "false" then some (.bool false)
  else if s = "null" then some .null
  else if cs ≠ [] && cs.all Char.isDigit then
    some (.num (digitsToNat cs : Int))
  else if cs.length ≥ 2 && cs.head? = some '-' &&
      (cs.drop 1).all Char.isDigit then
    some (.num (-(digitsToNat (cs.drop 1) : Int)))
  else if cs.length ≥ 2 && cs.head? = some '"' && cs.getLast? = some '"' &&
      ((cs.drop 1).dropLast.all fun c => c ≠ '"' && c ≠ '\\') then
    some (.str ((s.drop 1).dropRight 1))
  else none

/-! ## Conditional groups

`_scanConditionals` (webcomponent.js lines 315–347) collects the elements
carrying `data-if` / `data-else-if` / `data-else` in document order, starts a
new group at each `data-if`, detaches each element and leaves an anchor
placeholder comment in its place.

`_applyConditionals` (lines 601–634) then walks each group in order with a
`matched` flag:

```js
let shouldShow = false;
if (type === "else") {
  shouldShow = !matched;
} else {
  try {
    shouldShow = Function("state", `with(state)\x7breturn(${expr})\x7d`)(this.state);
  } catch {
    shouldShow = false;
  }
}
if (shouldShow && !matched) { /* mount el, remove placeholder */ matched = true; }
else { /* detach el, re-insert placeholder */ }
```

A member's expression is modelled by its evaluation function
`state → Option JSValue`; `none` models a thrown evaluation, and the
`with(state)` truthiness coercion is `truthy`.  The catch block assigns
`false` and contains no logging statement. -/

/-- The three conditional attributes. -/
inductive CondKind where
  | condIf
  | condElseIf
  | condElse
  deriving DecidableEq, Repr

/-- One member of a conditional group as scanned: its kind, and the
evaluation of its expression attribute (`none` expression for `data-else`,
matching `expr = null` at scan time). -/
structure CondMember where
  kind : CondKind
  expr : Option (List (String × JSValue) → Option JSValue)

/-- After a render pass, each member's anchor position holds either the
member element (mounted) or its placeholder comment (detached). -/
inductive Slot where
  | attached
  | placeholder
  deriving DecidableEq, Repr

/-- The `shouldShow` computation for one member given the current `matched`
flag: `!matched` for `data-else`, otherwise the truthiness of the evaluated
expression, with a thrown evaluation caught and treated as `false`. -/
def shouldShow (st : List (String × JSValue)) (matched : Bool)
    (m : CondMember) : Bool :=
  match m.kind with
  | .condElse => !matched
  | _ =>
      match m.expr with
      | some e =>
          match e st with
          | some v => truthy v
          | none => false
      | none => false

/-- Walk a group with the `matched` flag, producing each member's slot:
the first member whose `shouldShow` is true while nothing has matched is
mounted; every other member ends as its placeholder. -/
def applyGroup (st : List (String × JSValue)) (matched : Bool) :
    List CondMember → List Slot
  | [] => []
  | m :: rest =>
      let s := shouldShow st matched m
      if s && !matched then Slot.attached :: applyGroup st true rest
      else Slot.placeholder :: applyGroup st matched rest

/-- `_applyConditionals` on one group: start with `matched = false`. -/
def applyConditionals (st : List (String × JSValue)) (g : List CondMember) :
    List Slot :=
  applyGroup st false g

/-- `_applyConditionals` instrumented with the logger trace it emits.
The function body of `_applyConditionals` contains no `logger` call — in
particular the catch block is just `catch \x7b shouldShow = false; \x7d` — so no
member ever contributes a log line. -/
def applyGroupLog (st : List (String × JSValue)) (matched : Bool) :
    List CondMember → List Slot × List String
  | [] => ([], [])
  | m :: rest =>
      let s := shouldShow st matched m
      if s && !matched then
        let r := applyGroupLog st true rest
        (Slot.attached :: r.1, r.2)
      else
        let r := applyGroupLog st matched rest
        (Slot.placeholder :: r.1, r.2)

/-- `_applyConditionals` with its logger trace. -/
def applyConditionalsLog (st : List (String × JSValue))
    (g : List CondMember) : List Slot × List String :=
  applyGroupLog st false g

/-- A member's outcome when evaluated with the `matched` flag still clear:
`data-else` counts as truthy, otherwise the caught-and-coerced expression. -/
def memberTruthy (st : List (String × JSValue)) (m : CondMember) : Bool :=
  match m.kind with
  | .condElse => true
  | _ =>
      match m.expr with
      | some e =>
          match e st with
          | some v => truthy v
          | none => false
      | none => false

/-! ## Template interpolation (`_renderTemplate`, webcomponent.js lines 638–657)

```js
return template.replace(/\{\s*([-\w.]+)\s*}/g, (_, key) => {
  let value = key.split(".").reduce((acc, prop) => acc?.[prop], this.state);
  if (typeof value === "function") {
    try { value = value.call(this); } catch (e) { value = ""; }
  }
  return value != null ? value : "";
});
```
The placeholder scanner below implements the regex: `\x7b`, optional
whitespace, a nonempty greedy run of `[-\w.]` characters, optional
whitespace, `\x7d`; non-matching braces are left in place and replacement
output is not rescanned (as with a single `/g` pass). -/

/-- The regex class `\w`: ASCII letters, digits, underscore (this class —
which also defines the `\b` word boundary — does not contain `$`). -/
def isWordChar (c : Char) : Bool :=
  c.isAlpha || c.isDigit || c = '_'

/-- A character of the placeholder key class `[-\w.]` (without `$`,
which `\w` does not contain — `$` keys do not occur in the claims). -/
def isKeyChar (c : Char) : Bool :=
  c.isAlpha || c.isDigit || c = '_' || c = '-' || c = '.'

/-- Skip a run of regex whitespace `\s`. -/
def skipSpaces : List Char → List Char
  | [] => []
  | c :: rest =>
      if c = ' ' || c = '\t' || c = '\n' || c = '\r' then skipSpaces rest
      else c :: rest

/-- Longest run of key characters and the remainder. -/
def takeKeyChars : List Char → List Char × List Char
  | [] => ([], [])
  | c :: rest =>
      if isKeyChar c then
        let r := takeKeyChars rest
        (c :: r.1, r.2)
      else ([], c :: rest)

/-- After an opening brace: match `\s* key \s* \x7d`, returning the key and
the remainder on success. -/
def tryPlaceholder (cs : List Char) : Option (String × List Char) :=
  let cs1 := skipSpaces cs
  let kr := takeKeyChars cs1
  if kr.1 = [] then none
  else
    match skipSpaces kr.2 with
    | '}' :: rest => some (String.mk kr.1, rest)
    | _ => none

/-- One fueled `/g` pass of placeholder replacement (fuel bounds the scan;
it is instantiated with the input length, which one-char-at-a-time
consumption never exceeds). -/
def renderScan (subst : String → String) : Nat → List Char → List Char
  | 0, cs => cs
  | _ + 1, [] => []
  | fuel + 1, '{' :: rest =>
      match tryPlaceholder rest with
      | some (key, rest') => (subst key).toList ++ renderScan subst fuel rest'
      | none => '{' :: renderScan subst fuel rest
  | fuel + 1, c :: rest => c :: renderScan subst fuel rest

/-- Property access on a (primitive) JS value: `acc?.[prop]` is `undefined`
for every value the model contains (the model has no nested objects). -/
def propGet (_ : JSValue) (_ : String) : JSValue := .undefVal

/-- `key.split(".").reduce((acc, prop) => acc?.[prop], this.state)`:
look up the first segment in state, then chase the rest. -/
def pathLookup (st : List (String × JSValue)) (path : String) : JSValue :=
  match (splitOnChar '.' path.toList).map String.mk with
  | [] => .undefVal
  | seg :: rest => rest.foldl propGet ((lookupKey st seg).getD .undefVal)

/-- JS ToString on the modelled values (integers print as in JS). -/
def jsToString : JSValue → String
  | .null => "null"
  | .undefVal => "undefined"
  | .bool b => if b then "true" else "false"
  | .num n => toString n
  | .str s => s
  | .fn _ => "function"

/-- The replacement callback: path-lookup the key, invoke a function value
(`fnEval`, `none` modelling a throw caught into `""`), then
`value != null ? value : ""` with string coercion by `replace`. -/
def substPlaceholder (fnEval : Nat → Option JSValue)
    (st : List (String × JSValue)) (key : String) : String :=
  let v0 := pathLookup st key
  let v :=
    match v0 with
    | .fn id =>
        match fnEval id with
        | some r => r
        | none => .str ""
    | other => other
  if nullish v then "" else jsToString v

/-- `_renderTemplate(template, data)` (the `data` argument is computed by
`_render` but never read — the callback reads `this.state` directly). -/
def renderTemplate (fnEval : Nat → Option JSValue)
    (st : List (String × JSValue)) (tpl : String) : String :=
  String.mk (renderScan (substPlaceholder fnEval st) tpl.toList.length tpl.toList)

/-! ## Attribute-binding rendering (`_render`, webcomponent.js lines 574–581)

```js
this._bindings.filter((b) => b.element)
  .forEach(({ element, attrName, template, key }) => {
    const val = key.split(".").reduce((o, p) => o?.[p], this.state) ?? "";
    const regex = new RegExp(`\\{\\s*${key}\\s*\\}`, "g");
    element.setAttribute(attrName, template.replace(regex, val));
  });
```
The per-key regex is modelled as a literal match of the key between braces
with optional whitespace.  (The source interpolates the key unescaped, so a
`.` in a key would act as a regex wildcard; no claim depends on that.) -/

/-- Match a literal character sequence, returning the remainder. -/
def matchLiteral : List Char → List Char → Option (List Char)
  | [], cs => some cs
  | _ :: _, [] => none
  | k :: ks, c :: cs => if c = k then matchLiteral ks cs else none

/-- After an opening brace: `\s* key \s* \x7d` for one fixed key. -/
def tryKeyPlaceholder (key : List Char) (cs : List Char) : Option (List Char) :=
  match matchLiteral key (skipSpaces cs) with
  | some cs2 =>
      match skipSpaces cs2 with
      | '}' :: rest => some rest
      | _ => none
  | none => none

/-- Fueled `/g` replacement of `\x7b\s*key\s*\x7d` by `val`. -/
def keyScan (key val : List Char) : Nat → List Char → List Char
  | 0, cs => cs
  | _ + 1, [] => []
  | fuel + 1, '{' :: rest =>
      match tryKeyPlaceholder key rest with
      | some rest' => val ++ keyScan key val fuel rest'
      | none => '{' :: keyScan key val fuel rest
  | fuel + 1, c :: rest => c :: keyScan key val fuel rest

/-- `template.replace(new RegExp(..key..,"g"), val)`. -/
def replaceKeyPlaceholder (key val tpl : String) : String :=
  String.mk (keyScan key.toList val.toList tpl.toList.length tpl.toList)

/-! ## The render pass (`_render`, webcomponent.js lines 536–598) and its DOM

`_render` performs, in order: conditional groups, text-binding groups,
attribute bindings, and two-way (`data-bind`) element writes.  The DOM is
modelled by what each pass can touch:

* one slot list per conditional group (element at anchor vs placeholder);
* one `TextSlot` per text-binding group — the walker's text node, which the
  HTML branch (`node.replaceWith(frag)`) replaces by a parsed fragment,
  after which the node is detached and later `replaceWith` calls are no-ops;
* an attribute store keyed by element identity and attribute name
  (`element.setAttribute(attrName, …)`);
* the current content of each `[data-bind]` element (its
  `value`/`innerText`/`textContent`, whichever branch applies — one string
  either way). -/

/-- `/<[a-z][\s\S]*>/i.test(rendered)`: an ASCII letter directly after a
`<`, with some `>` later. -/
def isHTML : List Char → Bool
  | [] => false
  | '<' :: rest =>
      (match rest with
       | c :: rest' => c.isAlpha && rest'.contains '>'
       | [] => false) || isHTML rest
  | _ :: rest => isHTML rest

/-- The DOM position a text-binding group renders into. -/
inductive TextSlot where
  | textNode (content : String)
  | fragment (html : String)
  deriving DecidableEq, Repr

/-- One text-binding group's render step: if the substituted string looks
like HTML, the (still-attached) text node is replaced by a parsed fragment
— once detached, `replaceWith` no longer changes the DOM; otherwise
`node.textContent = rendered` (a write to a detached node does not change
the DOM either). -/
def renderTextSlot (rendered : String) (s : TextSlot) : TextSlot :=
  if isHTML rendered.toList then
    match s with
    | .textNode _ => .fragment rendered
    | .fragment h => .fragment h
  else
    match s with
    | .textNode _ => .textNode rendered
    | .fragment h => .fragment h

/-- An attribute binding entry of `_bindings` (`element`, `attrName`,
`template`, `key`); the element is identified by a numeric id. -/
structure AttrBindingEntry where
  elemId : Nat
  attrName : String
  template : String
  key : String

/-- A `[data-bind]` element as the two-way pass sees it: its bind path and
its current rendered content. -/
structure TwoWayEl where
  key : String
  content : String
  deriving DecidableEq, Repr

/-- The per-instance binding tables consumed by `_render`. -/
structure BindingTables where
  condGroups : List (List CondMember)
  textTemplates : List String
  attrBindings : List AttrBindingEntry

/-- The mutable DOM as `_render` touches it. -/
structure Dom where
  condSlots : List (List Slot)
  textSlots : List TextSlot
  attrs : Nat × String → Option String
  twoWay : List TwoWayEl

/-- `setAttribute` on the attribute store. -/
def setAttr (m : Nat × String → Option String) (k : Nat × String) (v : String) :
    Nat × String → Option String :=
  fun k' => if k' = k then some v else m k'

/-- The string an attribute binding writes:
`key.split(".").reduce(...) ?? ""` substituted into the template. -/
def attrRenderedValue (st : List (String × JSValue)) (ab : AttrBindingEntry) :
    String :=
  let v := pathLookup st ab.key
  replaceKeyPlaceholder ab.key (if nullish v then "" else jsToString v)
    ab.template

/-- One two-way element's render step (lines 583–597): compute
`val = pathLookup ?? ""`, then write it only when it differs from the
element's current content under JS strict comparison (a string compared
against a non-string value is always different, so non-string state values
are written — coerced through ToString — on every pass). -/
def renderTwoWayEl (st : List (String × JSValue)) (el : TwoWayEl) : TwoWayEl :=
  let v0 := pathLookup st el.key
  let val := if nullish v0 then JSValue.str "" else v0
  if JSValue.str el.content ≠ val then { el with content := jsToString val }
  else el

/-- `_render`: conditionals, then text groups, then attribute bindings,
then two-way writes, each against the fixed state snapshot. -/
def renderPass (fnEval : Nat → Option JSValue) (b : BindingTables)
    (st : List (String × JSValue)) (d : Dom) : Dom :=
  let d1 := { d with condSlots := b.condGroups.map (applyConditionals st) }
  let d2 := { d1 with
    textSlots := List.zipWith
      (fun tpl s => renderTextSlot (renderTemplate fnEval st tpl) s)
      b.textTemplates d1.textSlots }
  let d3 := { d2 with
    attrs := b.attrBindings.foldl
      (fun m (ab : AttrBindingEntry) =>
        setAttr m (ab.elemId, ab.attrName) (attrRenderedValue st ab))
      d2.attrs }
  { d3 with twoWay := d3.twoWay.map (renderTwoWayEl st) }

/-! ## Declarative event handlers (`_getEventBindings`, lines 194–311)

A `on<event>` attribute value is classified in precedence order:

* Case 1, inline arrow literal — `/^\([^)]*\)\s*=>/.test(code)`;
* Case 2, call expression — `code.includes("(") && code.includes(")")`,
  then parsed by `/^([a-zA-Z_$][0-9a-zA-Z_$]*)\s*\((.*)\)$/` and the name
  resolved by `this[funcName] || this.state[funcName]`;
* Case 3, named handler — everything else, resolved by `const fn =
  this[code]` only (state methods are not consulted), invoked when it is a
  function and otherwise reported with `logger.warn`. -/

/-- Start character of the identifier class `[a-zA-Z_$]`. -/
def identStartChar (c : Char) : Bool :=
  c.isAlpha || c = '_' || c = '$'

/-- Continuation character of the class `[0-9a-zA-Z_$]`. -/
def identChar (c : Char) : Bool :=
  c.isAlpha || c.isDigit || c = '_' || c = '$'

/-- Case 1 test `/^\([^)]*\)\s*=>/`. -/
def isArrowHandler (code : String) : Bool :=
  match code.toList with
  | '(' :: rest =>
      let inner := rest.takeWhile (fun c => c ≠ ')')
      match rest.drop inner.length with
      | ')' :: rest' =>
          match skipSpaces rest' with
          | '=' :: '>' :: _ => true
          | _ => false
      | _ => false
  | _ => false

/-- The three handler shapes, in the precedence order the code tests. -/
inductive HandlerCase where
  | inlineArrow
  | callExpr
  | named
  deriving DecidableEq, Repr

/-- `_getEventBindings`' classification of a handler attribute value. -/
def classifyHandler (code : String) : HandlerCase :=
  if isArrowHandler code then .inlineArrow
  else if code.toList.contains '(' && code.toList.contains ')' then .callExpr
  else .named

/-- Case 2's parse `/^([a-zA-Z_$][0-9a-zA-Z_$]*)\s*\((.*)\)$/`:
an identifier, optional whitespace, `(`, any argument text, a final `)`.
Returns the function name and the argument text. -/
def parseCallName (code : String) : Option (String × String) :=
  match code.toList with
  | [] => none
  | c :: _ =>
      if identStartChar c then
        let cs := code.toList
        let name := cs.takeWhile identChar
        match skipSpaces (cs.drop name.length) with
        | '(' :: inner =>
            if inner.getLast? = some ')' then
              some (String.mk name, String.mk inner.dropLast)
            else none
        | _ => none
      else none

/-- The component as handler resolution sees it: instance properties
(`this.<name>`) and the state map. -/
structure CompEnv where
  instProps : List (String × JSValue)
  state : List (String × JSValue)
  deriving DecidableEq, Repr

/-- What a dispatched handler listener does. -/
inductive DispatchOutcome where
  | invoked (id : Nat)
  | warnedMissing
  | ranFallback
  deriving DecidableEq, Repr

/-- Case 3 listener (lines 281–298): `const fn = this[code];` — only the
instance property is consulted; if it is not a function, a warning is
logged and nothing is invoked. -/
def dispatchNamed (env : CompEnv) (code : String) : DispatchOutcome :=
  match lookupKey env.instProps code with
  | some (.fn id) => .invoked id
  | _ => .warnedMissing

/-- Case 2's name resolution (line 233):
`const fn = this[funcName] || this.state[funcName];`. -/
def resolveCallFn (env : CompEnv) (funcName : String) : JSValue :=
  let a := (lookupKey env.instProps funcName).getD .undefVal
  if truthy a then a else (lookupKey env.state funcName).getD .undefVal

/-- Case 2 listener (lines 221–278): parse the call, resolve the name
against instance then state; a non-function resolution warns, and an
unparsable expression falls back to `new Function("event", code)`. -/
def dispatchCall (env : CompEnv) (code : String) : DispatchOutcome :=
  match parseCallName code with
  | some (funcName, _) =>
      match resolveCallFn env funcName with
      | .fn id => .invoked id
      | _ => .warnedMissing
  | none => .ranFallback

/-! ## emit / listen / disconnect (lines 66–74, 1187–1212)

```js
emit(name, detail) {
  const data = detail ?? this.state;
  this.dispatchEvent(new CustomEvent(name, { detail: data, bubbles: true, composed: true }));
}
listen(name, handler) {
  const listener = (e) => handler(e.detail);
  document.addEventListener(name, listener);
  this._eventBindings.push({ element: document, event: name, listener });
}
disconnectedCallback() {
  this.observer.disconnect();
  this._eventBindings.forEach(({ element, event, listener }) => {
    element.removeEventListener(event, listener);
  });
  this._eventBindings = [];
}
```
Dispatch model: a `CustomEvent` with `bubbles: true` and `composed: true`
crosses the shadow boundary and bubbles to `document`, so every
document-level listener for that event name fires regardless of which
component dispatched it. -/

/-- A listener registration target. -/
inductive EvtTarget where
  | doc
  | element (id : Nat)
  deriving DecidableEq, Repr

/-- An `_eventBindings` record (`element`, `event`, `listener`). -/
structure EventBindingRec where
  target : EvtTarget
  event : String
  listenerId : Nat
  deriving DecidableEq, Repr

/-- A listener attached to `document`: the wrapper's identity and the
user handler it forwards `e.detail` to. -/
structure DocListenerRec where
  event : String
  listenerId : Nat
  handlerId : Nat
  deriving DecidableEq, Repr

/-- The global document listener list. -/
structure Page where
  docListeners : List DocListenerRec
  deriving DecidableEq, Repr

/-- A component instance as the event APIs see it. -/
structure InstView where
  state : List (String × JSValue)
  eventBindings : List EventBindingRec
  deriving DecidableEq, Repr

/-- `listen(name, handler)`: attach the wrapper to `document` (not to the
instance root) and record it in `_eventBindings`. -/
def listen (page : Page) (inst : InstView) (name : String)
    (handlerId listenerId : Nat) : Page × InstView :=
  ({ docListeners := page.docListeners ++ [⟨name, listenerId, handlerId⟩] },
   { inst with
      eventBindings := inst.eventBindings ++ [⟨.doc, name, listenerId⟩] })

/-- The payload a handler receives. -/
inductive EmitPayload where
  | value (v : JSValue)
  | stateSnapshot (s : List (String × JSValue))
  deriving DecidableEq, Repr

/-- `detail ?? this.state` (an omitted argument is `undefined`, and `??`
also falls through on an explicit `null`/`undefined`). -/
def emitData (inst : InstView) (detail : Option JSValue) : EmitPayload :=
  match detail with
  | some v => if nullish v then .stateSnapshot inst.state else .value v
  | none => .stateSnapshot inst.state

/-- The handler invocations `emit(name, detail)` causes: the event bubbles
(composed) to `document`, firing each matching document listener, whose
wrapper passes `e.detail` to the user handler. -/
def emitInvocations (page : Page) (inst : InstView) (name : String)
    (detail : Option JSValue) : List (Nat × EmitPayload) :=
  (page.docListeners.filter (fun l => decide (l.event = name))).map
    (fun l => (l.handlerId, emitData inst detail))

/-- `disconnectedCallback`: every `_eventBindings` record is removed from
its target (document listeners disappear from the page), then the list is
cleared. -/
def disconnectInst (page : Page) (inst : InstView) : Page × InstView :=
  ({ docListeners := page.docListeners.filter
      (fun l => !(inst.eventBindings.any
        (fun b => decide (b.target = .doc) && decide (b.event = l.event)
          && decide (b.listenerId = l.listenerId)))) },
   { inst with eventBindings := [] })

/-! ## Registration caching (`Ladrillos.registerComponent`,
main.js lines 113–128 and the same logic in `src/unnamed/part_006`
lines 28–44)

```js
async registerComponent(name, path, useShadowDOM = true) {
  if (this.components[name]) { …skip…; return; }
  try {
    let source = this.#cache.get(path);
    if (!source) {
      const res = await fetch(path);
      source = await res.text();
      this.#cache.set(path, source);
    }
    … // parse and define, then this.components[name] = …
```

Execution is single-threaded: everything up to `await fetch(path)` runs
synchronously on invocation; the cache is only written after the fetch
resolves.  There is no in-flight memo. -/

/-- Process-wide registration state. -/
structure RegistryState where
  registered : List String
  sourceCache : List (String × String)
  fetchCount : Nat
  deriving DecidableEq, Repr

/-- Whether a call suspended on its fetch or completed synchronously. -/
inductive RegPhase where
  | awaitingFetch
  | completed
  deriving DecidableEq, Repr

/-- The synchronous prefix of `registerComponent`: the already-registered
check and the cache probe; a cache miss counts a network fetch and
suspends, a hit lets the call run to completion at once. -/
def registerStart (g : RegistryState) (name path : String) :
    RegistryState × RegPhase :=
  if name ∈ g.registered then (g, .completed)
  else
    match lookupKey g.sourceCache path with
    | some _ => ({ g with registered := g.registered ++ [name] }, .completed)
    | none => ({ g with fetchCount := g.fetchCount + 1 }, .awaitingFetch)

/-- The continuation after `await fetch(path)` resolves with `body`:
store the cache entry and finish the registration. -/
def registerResume (g : RegistryState) (name path body : String) :
    RegistryState :=
  { g with sourceCache := setKey g.sourceCache path body,
           registered := g.registered ++ [name] }

/-- Two calls invoked before either completes: both synchronous prefixes
run first (each can only see the cache as it was before any fetch
resolved), then the pending continuations. -/
def concurrentRegister (g : RegistryState) (n1 n2 path body : String) :
    RegistryState :=
  let r1 := registerStart g n1 path
  let r2 := registerStart r1.1 n2 path
  let g2 := if r1.2 = .awaitingFetch then registerResume r2.1 n1 path body
            else r2.1
  if r2.2 = .awaitingFetch then registerResume g2 n2 path body else g2

/-- The second call invoked only after the first has fully completed. -/
def sequentialRegister (g : RegistryState) (n1 n2 path body : String) :
    RegistryState :=
  let r1 := registerStart g n1 path
  let g1 := if r1.2 = .awaitingFetch then registerResume r1.1 n1 path body
            else r1.1
  let r2 := registerStart g1 n2 path
  if r2.2 = .awaitingFetch then registerResume r2.1 n2 path body else r2.1

/-! ## The script rewriter (`_processScriptText`, webcomponent.js lines 670–1102)

The rewriter is a pipeline of regex passes over the script text.  Each JS
regex used by the source is implemented below as an explicit matcher over
`List Char`; `replaceWithContext` is the source's helper that collects all
matches of one pass and replaces them from last to first, skipping matches
that start inside a string literal (`isInsideString`). -/

/-- The quote-tracking state of `isInsideString`'s scan. -/
structure StrScan where
  inSingle : Bool
  inDouble : Bool
  inTemplate : Bool
  escaped : Bool
  deriving DecidableEq, Repr

/-- One character step of `isInsideString`'s loop. -/
def strScanStep (s : StrScan) (c : Char) : StrScan :=
  if s.escaped then { s with escaped := false }
  else if c = '\\' then { s with escaped := true }
  else if c = '\'' && !s.inDouble && !s.inTemplate then
    { s with inSingle := !s.inSingle }
  else if c = '"' && !s.inSingle && !s.inTemplate then
    { s with inDouble := !s.inDouble }
  else if c = Char.ofNat 96 && !s.inSingle && !s.inDouble then
    { s with inTemplate := !s.inTemplate }
  else s

/-- `isInsideString(text, position)`: scan the prefix before `position`
tracking single/double/template quote state. -/
def isInsideString (text : List Char) (pos : Nat) : Bool :=
  let s := (text.take pos).foldl strScanStep ⟨false, false, false, false⟩
  s.inSingle || s.inDouble || s.inTemplate

/-- One regex match: the matched text and its capture groups (a `none`
group models an `undefined` capture). -/
structure RxMatch where
  matched : List Char
  groups : List (Option (List Char))

/-- A matcher tries a regex anchored at one position; it receives the
character preceding the position (`none` at the string start, for `^` and
`\b`) and the remaining text. -/
def Matcher : Type :=
  Option Char → List Char → Option RxMatch

/-- `regex.exec` looping with `/g`: scan left to right, resuming after
each match (the fuel starts at the text length and bounds the number of
scan steps, each of which consumes at least one character). -/
def findMatchesAux (matcher : Matcher) :
    Nat → Nat → Option Char → List Char → List (Nat × RxMatch)
  | 0, _, _, _ => []
  | _ + 1, _, _, [] => []
  | fuel + 1, i, prev, c :: rest =>
      match matcher prev (c :: rest) with
      | some m =>
          if m.matched.length > 0 then
            (i, m) :: findMatchesAux matcher fuel
              (i + m.matched.length) m.matched.getLast?
              ((c :: rest).drop m.matched.length)
          else (i, m) :: findMatchesAux matcher fuel (i + 1) (some c) rest
      | none => findMatchesAux matcher fuel (i + 1) (some c) rest

/-- All matches of a pass over the whole text. -/
def findMatches (matcher : Matcher) (text : List Char) :
    List (Nat × RxMatch) :=
  findMatchesAux matcher text.length 0 none text

/-- A replacer as `replaceWithContext` calls it, threading a mutable
environment `σ` (the source mutates `parameterRenames` from inside
replacers): arguments are the matched text, the capture groups, the match
index and the current whole text. -/
def Replacer (σ : Type) : Type :=
  σ → List Char → List (Option (List Char)) → Nat → List Char →
    List Char × σ

/-- Process one recorded match (matches are processed from last to first,
so earlier indices are still valid): skip it when its start lies inside a
string literal, otherwise splice in the replacement. -/
def applyOneReplacement {σ : Type} (replacer : Replacer σ)
    (acc : List Char × σ) (im : Nat × RxMatch) : List Char × σ :=
  let text := acc.1
  let idx := im.1
  let m := im.2
  if isInsideString text idx then acc
  else
    let r := replacer acc.2 m.matched m.groups idx text
    (text.take idx ++ r.1 ++ text.drop (idx + m.matched.length), r.2)

/-- `replaceWithContext(currentText, regex, replacerCallback)`. -/
def replaceWithContext {σ : Type} (matcher : Matcher)
    (replacer : Replacer σ) (text : List Char) (s0 : σ) : List Char × σ :=
  (findMatches matcher text).reverse.foldl (applyOneReplacement replacer)
    (text, s0)

/-- Insertion-ordered de-duplication (a JS `Set` built by repeated `add`). -/
def dedupFirst (l : List String) : List String :=
  l.foldl (fun acc n => if n ∈ acc then acc else acc ++ [n]) []

/-- The regex whitespace class `\s` (the forms occurring in scripts). -/
def isSpaceChar (c : Char) : Bool :=
  c = ' ' || c = '\t' || c = '\n' || c = '\r'

/-- Is the character (when present) a word character?  Absent counts as
non-word, as at the ends of the subject string. -/
def optWord : Option Char → Bool
  | some c => isWordChar c
  | none => false

/-- `\b` at a position between characters `a` and `b`. -/
def isBoundary (a b : Option Char) : Bool :=
  optWord a != optWord b

/-- `(\+\+|\-\-)`. -/
def matchOp2 : List Char → Option (List Char × List Char)
  | '+' :: '+' :: rest => some (['+', '+'], rest)
  | '-' :: '-' :: rest => some (['-', '-'], rest)
  | _ => none

/-- The single-character compound-assignment operator class
`[+\-*/%&|^]`. -/
def isCompoundOpChar (c : Char) : Bool :=
  c = '+' || c = '-' || c = '*' || c = '/' || c = '%' || c = '&' ||
  c = '|' || c = '^'

/-- `([+\-*/%&|^]|<<|>>|>>>)?=(?!=)` with the alternation's backtracking:
returns the optional operator capture, the consumed characters (through
`=`), and the rest. -/
def matchAssignTail (cs : List Char) : Option (Option (List Char) × List Char × List Char) :=
  match cs with
  | c1 :: rest1 =>
      if isCompoundOpChar c1 then
        match rest1 with
        | '=' :: r => if r.head? = some '=' then none
                      else some (some [c1], [c1, '='], r)
        | _ => none
      else if startsWithLit ['<', '<', '='] cs then
        let r := cs.drop 3
        if r.head? = some '=' then none else some (some ['<', '<'], ['<', '<', '='], r)
      else if startsWithLit ['>', '>', '='] cs then
        let r := cs.drop 3
        if r.head? = some '=' then none else some (some ['>', '>'], ['>', '>', '='], r)
      else if startsWithLit ['>', '>', '>', '='] cs then
        let r := cs.drop 4
        if r.head? = some '=' then none
        else some (some ['>', '>', '>'], ['>', '>', '>', '='], r)
      else if c1 = '=' then
        if rest1.head? = some '=' then none else some (none, ['='], rest1)
      else none
  | [] => none

/-- Pre-increment/decrement regex `(^|\W)(\+\+|\-\-)\s*varName\b`
(webcomponent.js lines 867–871). -/
def preIncMatcher (varName : List Char) : Matcher := fun prev cs =>
  let core := fun (tail : List Char) (pfx : List Char) =>
    match matchOp2 tail with
    | some (op, r1) =>
        let sp := r1.takeWhile isSpaceChar
        let r2 := r1.dropWhile isSpaceChar
        if startsWithLit varName r2 then
          let after := (r2.drop varName.length).head?
          if optWord after then none
          else some (RxMatch.mk (pfx ++ op ++ sp ++ varName) [some pfx, some op])
        else none
    | none => none
  match prev with
  | none =>
      match core cs [] with
      | some m => some m
      | none =>
          match cs with
          | c :: rest => if !isWordChar c then core rest [c] else none
          | [] => none
  | some _ =>
      match cs with
      | c :: rest => if !isWordChar c then core rest [c] else none
      | [] => none

/-- Its replacer: `${prefix}${op}this.state.${varName}`. -/
def preIncReplacer (varName : List Char) : Replacer Unit :=
  fun s _orig groups _idx _text =>
    let pfx := ((groups.getD 0 none).getD [])
    let op := ((groups.getD 1 none).getD [])
    (pfx ++ op ++ "this.state.".toList ++ varName, s)

/-- Post-increment/decrement regex `\bvarName\s*(\+\+|\-\-)(?!\.)`
(lines 874–877). -/
def postIncMatcher (varName : List Char) : Matcher := fun prev cs =>
  if optWord prev then none
  else if startsWithLit varName cs then
    let r1 := cs.drop varName.length
    let sp := r1.takeWhile isSpaceChar
    match matchOp2 (r1.dropWhile isSpaceChar) with
    | some (op, rest) =>
        if rest.head? = some '.' then none
        else some (RxMatch.mk (varName ++ sp ++ op) [some op])
    | none => none
  else none

/-- Its replacer: `this.state.${varName}${op}`. -/
def postIncReplacer (varName : List Char) : Replacer Unit :=
  fun s _orig groups _idx _text =>
    let op := ((groups.getD 0 none).getD [])
    ("this.state.".toList ++ varName ++ op, s)

/-- Compound/plain assignment regex
`(^|\W)varName\s*([+\-*/%&|^]|<<|>>|>>>)?=(?!=)` (lines 881–898). -/
def compoundMatcher (varName : List Char) : Matcher := fun prev cs =>
  let core := fun (tail : List Char) (pfx : List Char) =>
    if startsWithLit varName tail then
      let r1 := tail.drop varName.length
      let sp := r1.takeWhile isSpaceChar
      match matchAssignTail (r1.dropWhile isSpaceChar) with
      | some (opGrp, opCons, _) =>
          some (RxMatch.mk (pfx ++ varName ++ sp ++ opCons) [some pfx, opGrp])
      | none => none
    else none
  match prev with
  | none =>
      match core cs [] with
      | some m => some m
      | none =>
          match cs with
          | c :: rest => if !isWordChar c then core rest [c] else none
          | [] => none
  | some _ =>
      match cs with
      | c :: rest => if !isWordChar c then core rest [c] else none
      | [] => none

/-- `\b(const|let|var)\s+$` on a lookbehind window. -/
def endsWithDeclKw (window : List Char) : Bool :=
  let rev := window.reverse
  let spacesRev := rev.takeWhile isSpaceChar
  let rest := rev.dropWhile isSpaceChar
  let boundAfter := fun (remaining : List Char) =>
    match remaining.head? with
    | some c => !isWordChar c
    | none => true
  decide (spacesRev ≠ []) &&
  ((startsWithLit ['t', 's', 'n', 'o', 'c'] rest && boundAfter (rest.drop 5)) ||
   (startsWithLit ['t', 'e', 'l'] rest && boundAfter (rest.drop 3)) ||
   (startsWithLit ['r', 'a', 'v'] rest && boundAfter (rest.drop 3)))

/-- Compound-assignment replacer: keep the declaration site (a 10-char
lookbehind ending in `const`/`let`/`var` plus whitespace), otherwise
`${prefix}this.state.${varName} ${opStr || ""}=`. -/
def compoundReplacer (varName : List Char) : Replacer Unit :=
  fun s orig groups idx fullText =>
    let pfx := ((groups.getD 0 none).getD [])
    let opStr := (groups.getD 1 none)
    let ems := idx + pfx.length
    let lookbehind := (fullText.take ems).drop (ems - 10)
    if endsWithDeclKw lookbehind then (orig, s)
    else (pfx ++ "this.state.".toList ++ varName ++ [' '] ++ opStr.getD []
            ++ ['='], s)

/-- Reference regex `\bvarName\b(?!\s*[+\-*/%&|^]?=)` (lines 901–904). -/
def refMatcher (varName : List Char) : Matcher := fun prev cs =>
  if optWord prev then none
  else if startsWithLit varName cs then
    let rest := cs.drop varName.length
    if optWord rest.head? then none
    else
      let r := rest.dropWhile isSpaceChar
      let lookahead :=
        match r with
        | c :: r2 => c = '=' || (isCompoundOpChar c && r2.head? = some '=')
        | [] => false
      if lookahead then none else some (RxMatch.mk varName [])
  else none

/-- The JS keyword list the reference replacer skips (lines 938–973). -/
def jsKeywords : List String :=
  ["break", "case", "catch", "class", "const", "continue", "debugger",
   "default", "delete", "do", "else", "export", "extends", "finally",
   "for", "function", "if", "import", "in", "instanceof", "let", "new",
   "return", "super", "switch", "this", "throw", "try", "typeof", "var",
   "void", "while", "with", "yield"]

/-- `lastIndexOf(c, idx)`: the last position `≤ idx` holding `c`. -/
def lastIndexOfCharUpTo (c : Char) (cs : List Char) (idx : Nat) : Option Nat :=
  let pre := cs.take (idx + 1)
  match pre.reverse.findIdx? (fun x => x = c) with
  | some j => some (pre.length - 1 - j)
  | none => none

/-- Reference replacer (lines 905–996): skip matches already behind
`this.state.`, renamed-parameter right-hand sides (the 50-char window
regex `([+\-*/%&|^]|<<|>>|>>>)?=\s*[^=]*$` succeeds exactly when the
window contains a `=`, since everything after its last `=` trivially
matches `\s*[^=]*`), JS keywords, declaration lines, property accesses,
and call positions; otherwise rewrite to `this.state.varName`. -/
def refReplacer (varName : List Char) (renames : List (String × String)) :
    Replacer Unit :=
  fun s orig _groups idx fullText =>
    let keep := (orig, s)
    let before11 := (fullText.take idx).drop (idx - 11)
    if endsWithLit "this.state.".toList before11 then keep
    else if (lookupKey renames (String.mk varName)).isSome &&
        containsSub ['='] ((fullText.take idx).drop (idx - 50)) then keep
    else if jsKeywords.contains (String.mk orig) then keep
    else
      let lineStart := ((lastIndexOfCharUpTo '\n' fullText idx).map (· + 1)).getD 0
      let beforeMatchLine := (fullText.take idx).drop lineStart
      if endsWithDeclKw beforeMatchLine then keep
      else if decide (idx > 0) && (fullText.take idx).getLast? = some '.' then keep
      else
        let after := fullText.drop (idx + orig.length)
        if (after.dropWhile isSpaceChar).head? = some '(' then keep
        else ("this.state.".toList ++ varName, s)

/-- One iteration of the declaration-prefix group
`(function\s+\w+\s*|const\s+\w+\s*=\s*|let\s+\w+\s*=\s*|var\s+\w+\s*=\s*)`:
returns the consumed characters and the rest. -/
def parseDeclOne (cs : List Char) : Option (List Char × List Char) :=
  let afterKw := fun (kw : List Char) (needsEq : Bool) =>
    if startsWithLit kw cs then
      let r0 := cs.drop kw.length
      let sp1 := r0.takeWhile isSpaceChar
      if sp1 = [] then none
      else
        let r1 := r0.dropWhile isSpaceChar
        let nm := r1.takeWhile isWordChar
        if nm = [] then none
        else
          let r2 := r1.drop nm.length
          let sp2 := r2.takeWhile isSpaceChar
          let r3 := r2.dropWhile isSpaceChar
          if needsEq then
            match r3 with
            | '=' :: r4 =>
                let sp3 := r4.takeWhile isSpaceChar
                some (kw ++ sp1 ++ nm ++ sp2 ++ ['='] ++ sp3,
                      r4.dropWhile isSpaceChar)
            | _ => none
          else some (kw ++ sp1 ++ nm ++ sp2, r3)
    else none
  match afterKw "function".toList false with
  | some r => some r
  | none =>
      match afterKw "const".toList true with
      | some r => some r
      | none =>
          match afterKw "let".toList true with
          | some r => some r
          | none => afterKw "var".toList true

/-- The arrow tail `\(([^)]*)\)\s*=>`: consumed text, the parameter
capture, and the rest. -/
def parseArrowTail (cs : List Char) : Option (List Char × List Char × List Char) :=
  match cs with
  | '(' :: r0 =>
      let inner := r0.takeWhile (fun c => c ≠ ')')
      match r0.drop inner.length with
      | ')' :: r1 =>
          let sp := r1.takeWhile isSpaceChar
          match r1.dropWhile isSpaceChar with
          | '=' :: '>' :: r2 =>
              some (['('] ++ inner ++ [')'] ++ sp ++ ['=', '>'], inner, r2)
          | _ => none
      | _ => none
  | _ => none

/-- Greedy-with-backtracking matching of the starred prefix group followed
by the arrow tail. -/
def arrowScan (fuel : Nat) (consumed : List Char)
    (lastGroup : Option (List Char)) (t : List Char) : Option RxMatch :=
  let tailHere :=
    match parseArrowTail t with
    | some (tc, params, _) =>
        some (RxMatch.mk (consumed ++ tc) [lastGroup, some params])
    | none => none
  match fuel with
  | 0 => tailHere
  | fuel' + 1 =>
      match parseDeclOne t with
      | some (pc, trest) =>
          match arrowScan fuel' (consumed ++ pc) (some pc) trest with
          | some m => some m
          | none => tailHere
      | none => tailHere

/-- The arrow-parameter regex (lines 757–758):
`\b(function\s+\w+\s*|const\s+\w+\s*=\s*|let\s+\w+\s*=\s*|var\s+\w+\s*=\s*)*\(([^)]*)\)\s*=>`. -/
def paramArrowMatcher : Matcher := fun prev cs =>
  match cs with
  | [] => none
  | c :: _ =>
      if isBoundary prev (some c) then arrowScan cs.length [] none cs
      else none

/-- The regular-function regex (line 794):
`\bfunction\s+(\w+)\s*\(([^)]*)\)`. -/
def regularFunctionMatcher : Matcher := fun prev cs =>
  if optWord prev then none
  else if startsWithLit "function".toList cs then
    let r0 := cs.drop 8
    let sp1 := r0.takeWhile isSpaceChar
    if sp1 = [] then none
    else
      let r1 := r0.dropWhile isSpaceChar
      let nm := r1.takeWhile isWordChar
      if nm = [] then none
      else
        let r2 := r1.drop nm.length
        let sp2 := r2.takeWhile isSpaceChar
        match r2.dropWhile isSpaceChar with
        | '(' :: r3 =>
            let inner := r3.takeWhile (fun c => c ≠ ')')
            match r3.drop inner.length with
            | ')' :: _ =>
                some (RxMatch.mk
                  ("function".toList ++ sp1 ++ nm ++ sp2 ++ ['('] ++ inner ++ [')'])
                  [some nm, some inner])
            | _ => none
        | _ => none
  else none

/-- Shared replacer of both parameter passes (lines 762–790 and 798–825):
split the parameter list, rename each parameter whose
brace-stripped head is bound (recording the rename), and splice the
renamed list back in only when a conflict was found. -/
def paramReplacer (bound : String → Bool) (fresh : String → String) :
    Replacer (List (String × String)) :=
  fun renames orig groups _idx _text =>
    let params := (groups.getD 1 none).getD []
    if trimChars params = [] then (orig, renames)
    else
      let paramList := ((splitOnChar ',' params).map trimChars).filter
        (fun p => decide (p ≠ []))
      let step := paramList.foldl
        (fun (acc : List (List Char) × List (String × String) × Bool) param =>
          let paramName := (trimChars ((splitOnChar '=' param).headD [])).filter
            (fun c => !(c = '{' || c = '}' || c = '[' || c = ']'))
          if bound (String.mk paramName) then
            let uniqueName := fresh (String.mk paramName)
            (acc.1 ++ [firstReplace paramName uniqueName.toList param],
             setKey acc.2.1 (String.mk paramName) uniqueName, true)
          else (acc.1 ++ [param], acc.2.1, acc.2.2))
        ([], renames, false)
      if step.2.2 then
        (firstReplace params (List.intercalate [',', ' '] step.1) orig, step.2.1)
      else (orig, step.2.1)

/-- Classic function-declaration scan (line 829):
`\bfunction\s+([a-zA-Z_$][0-9a-zA-Z_$]*)\s*\(`. -/
def classicFuncMatcher : Matcher := fun prev cs =>
  if optWord prev then none
  else if startsWithLit "function".toList cs then
    let r0 := cs.drop 8
    let sp1 := r0.takeWhile isSpaceChar
    if sp1 = [] then none
    else
      let r1 := r0.dropWhile isSpaceChar
      match r1 with
      | c :: _ =>
          if identStartChar c then
            let nm := r1.takeWhile identChar
            let r2 := r1.drop nm.length
            let sp2 := r2.takeWhile isSpaceChar
            match r2.dropWhile isSpaceChar with
            | '(' :: _ =>
                some (RxMatch.mk
                  ("function".toList ++ sp1 ++ nm ++ sp2 ++ ['(']) [some nm])
            | _ => none
          else none
      | [] => none
  else none

/-- Variable-declaration scan (lines 835–836):
`\b(const|let|var)\s+([a-zA-Z_$][0-9a-zA-Z_$]*)\s*=`. -/
def varDeclMatcher : Matcher := fun prev cs =>
  if optWord prev then none
  else
    let tryKw := fun (kw : List Char) =>
      if startsWithLit kw cs then
        let r0 := cs.drop kw.length
        let sp1 := r0.takeWhile isSpaceChar
        if sp1 = [] then none
        else
          let r1 := r0.dropWhile isSpaceChar
          match r1 with
          | c :: _ =>
              if identStartChar c then
                let nm := r1.takeWhile identChar
                let r2 := r1.drop nm.length
                let sp2 := r2.takeWhile isSpaceChar
                match r2.dropWhile isSpaceChar with
                | '=' :: _ =>
                    some (RxMatch.mk (kw ++ sp1 ++ nm ++ sp2 ++ ['='])
                      [some kw, some nm])
                | _ => none
              else none
          | [] => none
      else none
    match tryKw "const".toList with
    | some m => some m
    | none =>
        match tryKw "let".toList with
        | some m => some m
        | none => tryKw "var".toList

/-- Existence test of a matcher anywhere in the text (a plain
`regex.test`). -/
def existsMatchAux (m : Matcher) : Option Char → List Char → Bool
  | _, [] => false
  | prev, c :: rest => (m prev (c :: rest)).isSome || existsMatchAux m (some c) rest

/-- `regex.test(text)`. -/
def existsMatch (m : Matcher) (text : List Char) : Bool :=
  existsMatchAux m none text

/-- The function-valued-declaration pattern (lines 844–847):
`\bname\s*=\s*(?:function|\([^)]*\)\s*=>|[^=]+=>)`.  The third
alternative `[^=]+=>` holds exactly when the first `=` after the
assignment (with at least one non-`=` character before it) is followed
by `>`. -/
def funcPatternMatcher (name : List Char) : Matcher := fun prev cs =>
  if optWord prev then none
  else if startsWithLit name cs then
    let r0 := cs.drop name.length
    let r1 := r0.dropWhile isSpaceChar
    match r1 with
    | '=' :: r2 =>
        let t := r2.dropWhile isSpaceChar
        if startsWithLit "function".toList t then some (RxMatch.mk name [])
        else
          match t with
          | '(' :: tr =>
              let inner := tr.takeWhile (fun c => c ≠ ')')
              (match tr.drop inner.length with
               | ')' :: t1 =>
                   (match t1.dropWhile isSpaceChar with
                    | '=' :: '>' :: _ => some (RxMatch.mk name [])
                    | _ =>
                        let run := t.takeWhile (fun c => c ≠ '=')
                        if run ≠ [] &&
                            startsWithLit ['=', '>'] (t.drop run.length) then
                          some (RxMatch.mk name [])
                        else none)
               | _ =>
                   let run := t.takeWhile (fun c => c ≠ '=')
                   if run ≠ [] && startsWithLit ['=', '>'] (t.drop run.length) then
                     some (RxMatch.mk name [])
                   else none)
          | _ =>
              let run := t.takeWhile (fun c => c ≠ '=')
              if run ≠ [] && startsWithLit ['=', '>'] (t.drop run.length) then
                some (RxMatch.mk name [])
              else none
    | _ => none
  else none

/-- `funcPattern.test(srcText)`. -/
def funcPatternTest (name : List Char) (src : List Char) : Bool :=
  existsMatch (funcPatternMatcher name) src

/-- `new RegExp(`\bfunction\s+${name}\s*\(`).test(srcText)` (line 850). -/
def classicFnMatcher (name : List Char) : Matcher := fun prev cs =>
  if optWord prev then none
  else if startsWithLit "function".toList cs then
    let r0 := cs.drop 8
    let sp1 := r0.takeWhile isSpaceChar
    if sp1 = [] then none
    else
      let r1 := r0.dropWhile isSpaceChar
      if startsWithLit name r1 then
        match (r1.drop name.length).dropWhile isSpaceChar with
        | '(' :: _ => some (RxMatch.mk "function".toList [])
        | _ => none
      else none
  else none

/-- `classicFnTest`. -/
def classicFnTest (name : List Char) (src : List Char) : Bool :=
  existsMatch (classicFnMatcher name) src

/-- A plain whole-word regex `\bword\b`. -/
def wordMatcher (w : List Char) : Matcher := fun prev cs =>
  if optWord prev then none
  else if startsWithLit w cs then
    if optWord ((cs.drop w.length).head?) then none
    else some (RxMatch.mk w [])
  else none

/-- The backward brace scan of the step-3 replacer (lines 1016–1027):
walking from the end of the prefix, `}` increments and `{` decrements a
counter; the first `{` taking it below zero is the enclosing function
body's opening position. -/
def lastUnbalancedBrace (cs : List Char) : Option Nat :=
  go cs.reverse (cs.length - 1) 0
where
  go : List Char → Nat → Int → Option Nat
    | [], _, _ => none
    | c :: r, pos, count =>
        if c = '}' then go r (pos - 1) (count + 1)
        else if c = '{' then
          if count - 1 < 0 then some pos else go r (pos - 1) (count - 1)
        else go r (pos - 1) count

/-- `/^\s*([+\-*/%&|^]|<<|>>|>>>)?=(?!=)/.test(after)` (line 1057). -/
def afterAssignTest (cs : List Char) : Bool :=
  (matchAssignTail (cs.dropWhile isSpaceChar)).isSome

/-- Step-3 replacer (lines 1004–1069): inside a function body whose
signature mentions the renamed parameter, substitute the unique name for
right-hand-side references only. -/
def paramRefReplacer (uniqueName : List Char) : Replacer Unit :=
  fun s mtch _groups idx fullText =>
    let keep := (mtch, s)
    let beforeMatch := fullText.take idx
    if containsSub uniqueName beforeMatch then
      match lastUnbalancedBrace beforeMatch with
      | some functionStart =>
          let beforeFunction := beforeMatch.take functionStart
          let recentSignature :=
            match lastIndexOfCharUpTo '(' beforeFunction functionStart with
            | some p => beforeFunction.drop p
            | none => beforeFunction
          if containsSub uniqueName recentSignature then
            let before11 := (fullText.take idx).drop (idx - 11)
            if endsWithLit "this.state.".toList before11 then keep
            else
              let after := (fullText.drop (idx + mtch.length)).take 20
              if afterAssignTest after then keep
              else (uniqueName, s)
          else keep
      | none => keep
    else keep

/-! ## `_isBound` (webcomponent.js lines 1134–1177) -/

/-- The binding tables `_isBound` consults at script-processing time. -/
structure BindingContext where
  stateKeys : List String
  eventKeys : List String
  templateKeys : List String
  condExprs : List String

/-- `/^([a-zA-Z_$][0-9a-zA-Z_$]*)\s*\(/` applied to an event-binding key:
the called function's name, when the key is a call expression. -/
def eventCallName (key : String) : Option String :=
  match key.toList with
  | c :: _ =>
      if identStartChar c then
        let nm := key.toList.takeWhile identChar
        match (key.toList.drop nm.length).dropWhile isSpaceChar with
        | '(' :: _ => some (String.mk nm)
        | _ => none
      else none
  | [] => none

/-- `_isBound(varName)`: present in state, referenced by an event binding
(exact key or called name), referenced by a text/attribute binding key
(exactly or as the root of a dotted path), or appearing as a whole word in
a conditional expression. -/
def isBound (ctx : BindingContext) (varName : String) : Bool :=
  varName ∈ ctx.stateKeys ||
  ctx.eventKeys.any (fun b =>
    decide (b ≠ "") &&
    (decide (b = varName) || decide (eventCallName b = some varName))) ||
  ctx.templateKeys.any (fun k =>
    decide (k = varName) ||
    startsWithLit (varName ++ ".").toList k.toList) ||
  ctx.condExprs.any (fun e => existsMatch (wordMatcher varName.toList) e.toList)

/-! ## Assignment generation and the full pipeline (lines 1072–1102) -/

/-- A single-quote character, for building the generated script text. -/
def sq : String := String.singleton (Char.ofNat 39)

/-- The generated per-identifier block (lines 1077–1086), with
`${boundVariables.has(name)}` interpolated as a boolean literal. -/
def assignBlockFor (name : String) (isBoundVar : Bool) : String :=
  "if (this._isBound(" ++ sq ++ name ++ sq ++ ")) \x7b\n" ++
  "  if (typeof " ++ name ++ " === " ++ sq ++ "function" ++ sq ++ ") \x7b\n" ++
  "    try \x7b this." ++ name ++ " = " ++ name ++ "; \x7d catch(e) \x7b console.warn(" ++
    sq ++ "LadrillosJS: Failed to assign function " ++ name ++
    " to component context." ++ sq ++ ", e); \x7d\n" ++
  " \x7d else if (typeof " ++ name ++ " !== " ++ sq ++ "undefined" ++ sq ++ " && " ++
    (if isBoundVar then "true" else "false") ++ ") \x7b\n" ++
  "    if(typeof this.state." ++ name ++ " === " ++ sq ++ "undefined" ++ sq ++
    ") \x7b try \x7b this.state." ++ name ++ " = " ++ name ++
    "; \x7d catch(e) \x7b console.warn(" ++ sq ++
    "LadrillosJS: Failed to initialize state for " ++ name ++ " from script." ++
    sq ++ ", e); \x7d \x7d\n" ++
  "  \x7d\n" ++
  "\x7d\n"

/-- Step 4 (lines 1072–1088): the appended `// --- Auto-processed …`
block, one sub-block per declared identifier. -/
def buildAssignments (declared : List String) (boundVars : List String) : String :=
  if declared.length > 0 then
    declared.foldl
      (fun acc n => acc ++ assignBlockFor n (boundVars.contains n))
      "\n\n// --- Auto-processed by LadrillosJS Framework ---\n"
  else ""

/-- The result of `_processScriptText` before execution. -/
structure RewriteResult where
  transformedSrc : List Char
  declaredIdentifiers : List String
  boundVariables : List String
  parameterRenames : List (String × String)
  scriptToExecute : List Char

/-- `_processScriptText(srcText)` (lines 670–1090), up to the point where
the synthesized script is executed: parameter-rename passes, declaration
scans (over the original source), bound-variable classification, the four
per-variable transform passes, step-3 parameter-reference substitution,
and the generated assignment block.  `fresh` models
`generateUniqueParamName` (whose `Math.random` suffix is irrelevant to the
semantics as long as names are fresh). -/
def processScriptText (ctx : BindingContext) (fresh : String → String)
    (srcText : List Char) : RewriteResult :=
  let bound := isBound ctx
  let stateVars := ctx.stateKeys.filter bound
  let p1 := replaceWithContext paramArrowMatcher (paramReplacer bound fresh)
    srcText []
  let p2 := replaceWithContext regularFunctionMatcher (paramReplacer bound fresh)
    p1.1 p1.2
  let renames := p2.2
  let classicNames := (findMatches classicFuncMatcher srcText).map
    (fun im => String.mk ((im.2.groups.getD 0 none).getD []))
  let varNames := (findMatches varDeclMatcher srcText).map
    (fun im => String.mk ((im.2.groups.getD 1 none).getD []))
  let declared := dedupFirst (classicNames ++ varNames)
  let boundVars := declared.filter (fun n =>
    bound n && !(funcPatternTest n.toList srcText || classicFnTest n.toList srcText))
  let allVars := dedupFirst (boundVars ++ stateVars)
  let t3 := allVars.foldl (fun acc vn =>
      let v := vn.toList
      let a1 := (replaceWithContext (preIncMatcher v) (preIncReplacer v) acc ()).1
      let a2 := (replaceWithContext (postIncMatcher v) (postIncReplacer v) a1 ()).1
      let a3 := (replaceWithContext (compoundMatcher v) (compoundReplacer v) a2 ()).1
      (replaceWithContext (refMatcher v) (refReplacer v renames) a3 ()).1)
    p2.1
  let t4 := renames.foldl (fun acc kv =>
      (replaceWithContext (wordMatcher kv.1.toList)
        (paramRefReplacer kv.2.toList) acc ()).1) t3
  { transformedSrc := t4,
    declaredIdentifiers := declared,
    boundVariables := boundVars,
    parameterRenames := renames,
    scriptToExecute := t4 ++ (buildAssignments declared boundVars).toList }

/-! ## The script-rewrite demo scenario (spec §8, claim C1)

Component: inline script `let count = 0; const inc = () => \x7b count++; \x7d;`,
template text binding `\x7bcount\x7d`, event attribute `onclick="inc"`, no
element attributes (empty initial state). -/

/-- The demo's binding tables at script-processing time: the text binding
key `count`, the event-binding key `inc`, empty state, no conditionals. -/
def demoBindingContext : BindingContext :=
  { stateKeys := [], eventKeys := ["inc"], templateKeys := ["count"],
    condExprs := [] }

/-- A deterministic stand-in for `generateUniqueParamName` (never invoked
on this input — `parameterRenames` stays empty). -/
def demoFresh (n : String) : String := "__param_" ++ n ++ "_x"

/-- The demo inline script source (after main.js comment stripping). -/
def demoScriptSrc : String :=
  "let count = 0; const inc = () => \x7b count++; \x7d;"

/-- The rewriter's output on the demo script. -/
def demoRewrite : RewriteResult :=
  processScriptText demoBindingContext demoFresh demoScriptSrc.toList

/-- Whole-word occurrences of a name that are not already part of a
`this.state.` access — the "bare" references of the claim. -/
def bareWordOccurrences (w : List Char) (text : List Char) : List Nat :=
  (findMatches (wordMatcher w) text).filterMap (fun im =>
    if endsWithLit "this.state.".toList ((text.take im.1).drop (im.1 - 11))
    then none else some im.1)

/-- Executing the synthesized demo script (`new Function(s).call(this)`)
against a fresh component.  The executed text is

```js
let count = 0; const inc = () => \x7b this.state.count++; \x7d;

// --- Auto-processed by LadrillosJS Framework ---
if (this._isBound('count')) \x7b
  if (typeof count === 'function') \x7b … \x7d else if (typeof count !== 'undefined' && true) \x7b
    if(typeof this.state.count === 'undefined') \x7b … this.state.count = count; … \x7d
  \x7d
\x7d
if (this._isBound('inc')) \x7b
  if (typeof inc === 'function') \x7b … this.inc = inc; … \x7d else if (… && false) \x7b … \x7d
\x7d
```

so: the local `count` stays `0`; the arrow closure (capturing `this`)
increments `this.state.count`; `this._isBound('count')` holds (text
binding), `count` is a number, so `this.state.count` — currently absent —
is initialized to `0` through the proxy; `this._isBound('inc')` holds
(event binding) and `inc` is a function, so it is assigned onto the
instance.  The returned pair is the component after execution and the
`this.<name>` function assignments (`0` identifies the `inc` closure). -/
def demoScriptRun (c : Component) : Component × List (String × JSValue) :=
  let stateCountUndefined :=
    match lookupKey c.state "count" with
    | none => true
    | some .undefVal => true
    | some _ => false
  (if stateCountUndefined then proxySet c "count" (.num 0) else c,
   [("inc", .fn 0)])

/-- The `inc` closure after rewriting: `() => \x7b this.state.count++; \x7d`
— read `this.state.count` (a number whenever the closure runs in this
scenario), add one, store through the proxy. -/
def demoIncClosure (c : Component) : Component :=
  let cur :=
    match lookupKey c.state "count" with
    | some (.num n) => n
    | _ => 0
  proxySet c "count" (.num (cur + 1))

/-- The component after connection: script executed against empty state,
then `_loadScript`'s final `this._render()`. -/
def demoAfterConnect : Component :=
  let r := demoScriptRun { state := [], renderCount := 0 }
  { r.1 with renderCount := r.1.renderCount + 1 }

/-- The instance-property environment after connection, as Case-3 handler
resolution sees it. -/
def demoEnv : CompEnv :=
  { instProps := (demoScriptRun { state := [], renderCount := 0 }).2,
    state := demoAfterConnect.state }

/-- The component after the click: the dispatched Case-3 listener finds
`this.inc` and invokes the closure. -/
def demoAfterClick : Component := demoIncClosure demoAfterConnect

/-! ## Demo inputs for the remaining claims -/

/-- Numeric read of a state variable inside a conditional expression
(`with(state)` exposes the key; absent reads as 0 only for modelling —
the demos below always define the key). -/
def evalNumVar (st : List (String × JSValue)) (k : String) : Int :=
  match lookupKey st k with
  | some (.num n) => n
  | _ => 0

/-- State `count = 7` for the conditional-group demo. -/
def demoCondState : List (String × JSValue) := [("count", JSValue.num 7)]

/-- The spec's demo group
`[data-if="count<5", data-else-if="count<10", data-else]`, each
expression modelled by its `with(state)` evaluation. -/
def demoCondGroup : List CondMember :=
  [⟨.condIf, some (fun st => some (.bool (decide (evalNumVar st "count" < 5))))⟩,
   ⟨.condElseIf, some (fun st => some (.bool (decide (evalNumVar st "count" < 10))))⟩,
   ⟨.condElse, none⟩]

/-- A conditional expression whose evaluation throws. -/
def demoThrowExpr : List (String × JSValue) → Option JSValue := fun _ => none

/-- A group whose `data-if` expression throws, with a `data-else`
fallback. -/
def demoThrowGroup : List CondMember :=
  [⟨.condIf, some demoThrowExpr⟩, ⟨.condElse, none⟩]

/-- A component for claim C6: the function lives only in state
(`this.inc` is absent). -/
def demoC6Env : CompEnv :=
  { instProps := [], state := [("inc", JSValue.fn 7)] }

/-- Fresh registry for the registration-caching claim. -/
def demoReg0 : RegistryState :=
  { registered := [], sourceCache := [], fetchCount := 0 }

/-- A page with one unrelated pre-existing document listener. -/
def demoPageC10 : Page := { docListeners := [⟨"other", 1, 5⟩] }

/-- Instance A (the subscriber) for claim C10. -/
def demoInstA : InstView := { state := [], eventBindings := [] }

/-- Instance B (the emitter) for claim C10. -/
def demoInstB : InstView :=
  { state := [("k", JSValue.num 2)], eventBindings := [] }

/-! ## Helper lemmas -/

theorem lookupKey_setKey_self {α : Type} (m : List (String × α)) (k : String)
    (v : α) : lookupKey (setKey m k v) k = some v := by
  induction m with
  | nil => simp [setKey, lookupKey]
  | cons hd tl ih =>
      by_cases h : hd.1 = k
      · simp [setKey, lookupKey, h]
      · simp [setKey, lookupKey, h, ih]

theorem lookupKey_setKey_ne {α : Type} (m : List (String × α)) (k k' : String)
    (v : α) (h : k ≠ k') : lookupKey (setKey m k v) k' = lookupKey m k' := by
  induction m with
  | nil => simp [setKey, lookupKey, h]
  | cons hd tl ih =>
      by_cases h1 : hd.1 = k
      · simp [setKey, lookupKey, h1, h]
      · simp [setKey, lookupKey, h1, ih]

theorem setState_renderCount (c : Component) (pairs : List (String × JSValue)) :
    (setState c pairs).renderCount = c.renderCount + pairs.length + 1 := by
  suffices h : ∀ (p : List (String × JSValue)) (c0 : Component),
      (p.foldl (fun acc kv => proxySet acc kv.1 kv.2) c0).renderCount
        = c0.renderCount + p.length by
    simp [setState, h]
  intro p
  induction p with
  | nil => intro c0; simp
  | cons hd tl ih =>
      intro c0
      rw [List.foldl_cons, ih]
      simp [proxySet]
      omega

theorem shouldShow_false_eq_memberTruthy (st : List (String × JSValue))
    (m : CondMember) : shouldShow st false m = memberTruthy st m := by
  cases m with
  | mk kind expr => cases kind <;> simp [shouldShow, memberTruthy]

theorem applyGroup_matched (st : List (String × JSValue))
    (g : List CondMember) :
    applyGroup st true g = g.map (fun _ => Slot.placeholder) := by
  induction g with
  | nil => simp [applyGroup]
  | cons m rest ih =>
      simp only [applyGroup, List.map_cons]
      have h : (shouldShow st true m && !true) = false := by simp
      rw [h]
      simp [ih]

theorem applyGroup_false_eq (st : List (String × JSValue)) :
    ∀ g : List CondMember, (∃ m ∈ g, memberTruthy st m = true) →
      applyGroup st false g
        = (List.range g.length).map
            (fun i => if i = g.findIdx (memberTruthy st)
                      then Slot.attached else Slot.placeholder) := by
  intro g
  induction g with
  | nil => intro h; simp at h
  | cons m rest ih =>
      intro hex
      by_cases hm : memberTruthy st m = true
      · have h1 : applyGroup st false (m :: rest)
            = Slot.attached :: applyGroup st true rest := by
          simp [applyGroup, shouldShow_false_eq_memberTruthy, hm]
        have h2 : (m :: rest).findIdx (memberTruthy st) = 0 := by
          simp [List.findIdx_cons, hm]
        rw [h1, applyGroup_matched, h2, List.length_cons,
          List.range_succ_eq_map, List.map_cons, List.map_map]
        simp [Function.comp_def, List.map_const', List.eq_replicate_iff]
      · have hm' : memberTruthy st m = false := by simpa using hm
        have hrest : ∃ x ∈ rest, memberTruthy st x = true := by
          rcases hex with ⟨x, hx, hxt⟩
          rcases List.mem_cons.mp hx with h1 | h2
          · exact absurd (h1 ▸ hxt) hm
          · exact ⟨x, h2, hxt⟩
        have h1 : applyGroup st false (m :: rest)
            = Slot.placeholder :: applyGroup st false rest := by
          simp [applyGroup, shouldShow_false_eq_memberTruthy, hm']
        have h2 : (m :: rest).findIdx (memberTruthy st)
            = rest.findIdx (memberTruthy st) + 1 := by
          simp [List.findIdx_cons, hm']
        rw [h1, h2, ih hrest, List.length_cons,
          List.range_succ_eq_map, List.map_cons, List.map_map]
        simp [Function.comp_def]

theorem count_attached_map_range (sel : Nat) :
    ∀ n : Nat, sel < n →
      (((List.range n).map
          (fun i => if i = sel then Slot.attached else Slot.placeholder)).count
        Slot.attached) = 1 := by
  intro n
  induction n with
  | zero => intro h; omega
  | succ k ih =>
      intro hlt
      rw [List.range_succ, List.map_append, List.count_append]
      by_cases hk : sel < k
      · rw [ih hk]
        have hne : k ≠ sel := by omega
        simp [hne]
      · have hsel : sel = k := by omega
        have hzero : (((List.range k).map
            (fun i => if i = sel then Slot.attached else Slot.placeholder)).count
            Slot.attached) = 0 := by
          rw [List.count_eq_zero]
          intro ha
          rcases List.mem_map.mp ha with ⟨i, hi, hia⟩
          have hine : i ≠ sel := by
            have := List.mem_range.mp hi
            omega
          rw [if_neg hine] at hia
          simp at hia
        rw [hzero, hsel]
        simp

theorem renderTextSlot_idem (r : String) (s : TextSlot) :
    renderTextSlot r (renderTextSlot r s) = renderTextSlot r s := by
  cases s <;> simp only [renderTextSlot] <;> split <;> simp_all

theorem zipWith_self_idem {A B : Type} (f : A → B → B)
    (hf : ∀ a x, f a (f a x) = f a x) :
    ∀ (ts : List A) (xs : List B),
      List.zipWith f ts (List.zipWith f ts xs) = List.zipWith f ts xs := by
  intro ts
  induction ts with
  | nil => intro xs; simp
  | cons a t ih =>
      intro xs
      cases xs with
      | nil => simp
      | cons x xs' => simp [List.zipWith, hf, ih]

theorem map_self_idem {B : Type} (g : B → B) (hg : ∀ x, g (g x) = g x)
    (xs : List B) : (xs.map g).map g = xs.map g := by
  induction xs with
  | nil => simp
  | cons x t ih => simp [List.map_cons, hg, ih]

theorem find?_append_cases {α : Type} (p : α → Bool) :
    ∀ l1 l2 : List α, (l1 ++ l2).find? p
      = match l1.find? p with
        | some x => some x
        | none => l2.find? p := by
  intro l1
  induction l1 with
  | nil => intro l2; simp
  | cons a t ih =>
      intro l2
      by_cases h : p a <;> simp [List.find?, h, ih]

theorem foldl_setAttr_apply (st : List (String × JSValue)) :
    ∀ (l : List AttrBindingEntry) (m : Nat × String → Option String)
      (k : Nat × String),
      (l.foldl
        (fun m (ab : AttrBindingEntry) =>
          setAttr m (ab.elemId, ab.attrName) (attrRenderedValue st ab)) m) k
      = match l.reverse.find?
            (fun ab => decide ((ab.elemId, ab.attrName) = k)) with
        | some ab => some (attrRenderedValue st ab)
        | none => m k := by
  intro l
  induction l with
  | nil => intro m k; simp
  | cons a t ih =>
      intro m k
      rw [List.foldl_cons, ih, List.reverse_cons, find?_append_cases]
      cases ht : t.reverse.find? (fun ab => decide ((ab.elemId, ab.attrName) = k)) with
      | some ab => simp
      | none =>
          by_cases hk : (a.elemId, a.attrName) = k
          · subst hk
            simp [List.find?, setAttr]
          · simp [List.find?, hk, setAttr, Ne.symm hk]

theorem foldl_setAttr_idem (st : List (String × JSValue))
    (l : List AttrBindingEntry) (m : Nat × String → Option String) :
    (l.foldl
      (fun m (ab : AttrBindingEntry) =>
        setAttr m (ab.elemId, ab.attrName) (attrRenderedValue st ab))
      (l.foldl
        (fun m (ab : AttrBindingEntry) =>
          setAttr m (ab.elemId, ab.attrName) (attrRenderedValue st ab)) m))
    = l.foldl
        (fun m (ab : AttrBindingEntry) =>
          setAttr m (ab.elemId, ab.attrName) (attrRenderedValue st ab)) m := by
  funext k
  rw [foldl_setAttr_apply, foldl_setAttr_apply]
  cases h : l.reverse.find? (fun ab => decide ((ab.elemId, ab.attrName) = k)) with
  | some ab => rfl
  | none => rfl

theorem renderTwoWayEl_idem (st : List (String × JSValue)) (el : TwoWayEl) :
    renderTwoWayEl st (renderTwoWayEl st el) = renderTwoWayEl st el := by
  cases el with
  | mk key content =>
      by_cases h : JSValue.str content
          = (if nullish (pathLookup st key) then JSValue.str "" else pathLookup st key)
      · simp [renderTwoWayEl, h]
      · have h1 : renderTwoWayEl st ⟨key, content⟩
            = ⟨key, jsToString (if nullish (pathLookup st key) then JSValue.str ""
                else pathLookup st key)⟩ := by
          simp [renderTwoWayEl, h]
        rw [h1]
        cases hv : (if nullish (pathLookup st key) then JSValue.str ""
            else pathLookup st key) with
        | str s => simp [renderTwoWayEl, hv, jsToString]
        | null => simp [renderTwoWayEl, hv, jsToString]
        | undefVal => simp [renderTwoWayEl, hv, jsToString]
        | bool b => simp [renderTwoWayEl, hv, jsToString]
        | num n => simp [renderTwoWayEl, hv, jsToString]
        | fn i => simp [renderTwoWayEl, hv, jsToString]

theorem renderPass_idem (fnEval : Nat → Option JSValue) (b : BindingTables)
    (st : List (String × JSValue)) (d : Dom) :
    renderPass fnEval b st (renderPass fnEval b st d)
      = renderPass fnEval b st d := by
  cases d with
  | mk cs ts as tw =>
      simp only [renderPass]
      congr 1
      · exact zipWith_self_idem _
          (fun tpl s => renderTextSlot_idem (renderTemplate fnEval st tpl) s)
          b.textTemplates ts
      · exact foldl_setAttr_idem st b.attrBindings as
      · exact map_self_idem _ (renderTwoWayEl_idem st) tw

theorem memberTruthy_else (st : List (String × JSValue)) (m : CondMember)
    (h : m.kind = CondKind.condElse) : memberTruthy st m = true := by
  cases m with
  | mk kind expr => cases kind <;> simp_all [memberTruthy]

theorem applyGroupLog_eq (st : List (String × JSValue)) :
    ∀ (g : List CondMember) (matched : Bool),
      applyGroupLog st matched g = (applyGroup st matched g, []) := by
  intro g
  induction g with
  | nil => intro matched; rfl
  | cons m rest ih =>
      intro matched
      simp only [applyGroupLog, applyGroup]
      by_cases h : (shouldShow st matched m && !matched) = true
      · simp [h, ih]
      · simp [h, ih]

theorem setState_state (c : Component) (pairs : List (String × JSValue)) :
    (setState c pairs).state
      = pairs.foldl (fun acc kv => setKey acc kv.1 kv.2) c.state := by
  suffices h : ∀ (p : List (String × JSValue)) (c0 : Component),
      (p.foldl (fun acc kv => proxySet acc kv.1 kv.2) c0).state
        = p.foldl (fun acc kv => setKey acc kv.1 kv.2) c0.state by
    simp [setState, h]
  intro p
  induction p with
  | nil => intro c0; rfl
  | cons hd tl ih =>
      intro c0
      rw [List.foldl_cons, List.foldl_cons, ih]
      rfl

/-! ## Claim theorems -/

/-- C1 (confirmed): on the component with inline script
`let count = 0; const inc = () => \x7b count++; \x7d;`, text binding
`\x7bcount\x7d` and event `onclick="inc"`, the rewriter leaves the
declaration alone and rewrites the closure's increment to
`this.state.count++` (the only bare whole-word `count` left in the
transformed source is the declaration site at index 4); `count` is
classified bound-non-function and `inc` function-valued; after connection
the state holds `count = 0` and `inc` is resolvable as an instance method
by the Case-3 named-handler listener; invoking the click handler takes
the observable state value from `0` to `1`, and the subsequent render of
the bound text yields `"1"` — the binding reads only the state container,
so no unrewritten local survives through it. -/
theorem claim_C1_script_rewrite :
    String.mk demoRewrite.transformedSrc
      = "let count = 0; const inc = () => \x7b this.state.count++; \x7d;" ∧
    demoRewrite.declaredIdentifiers = ["count", "inc"] ∧
    demoRewrite.boundVariables = ["count"] ∧
    demoRewrite.parameterRenames = [] ∧
    bareWordOccurrences "count".toList demoRewrite.transformedSrc = [4] ∧
    classifyHandler "inc" = HandlerCase.named ∧
    dispatchNamed demoEnv "inc" = DispatchOutcome.invoked 0 ∧
    lookupKey demoAfterConnect.state "count" = some (JSValue.num 0) ∧
    lookupKey demoAfterClick.state "count" = some (JSValue.num 1) ∧
    renderTemplate (fun _ => none) demoAfterClick.state "\x7bcount\x7d" = "1" := by
  decide

/-- C2 (counterexample): the state proxy's `set` trap renders
unconditionally — writing the value already stored (`x = 1` over
`x = 1`) still renders, and two consecutive identical writes trigger two
renders, not one. -/
theorem claim_C2_counterexample :
    (proxySet { state := [("x", JSValue.num 1)], renderCount := 0 }
        "x" (JSValue.num 1)).renderCount = 1 ∧
    (proxySet (proxySet { state := [("x", JSValue.num 1)], renderCount := 0 }
        "x" (JSValue.num 1)) "x" (JSValue.num 1)).renderCount = 2 ∧
    (proxySet (proxySet { state := [("x", JSValue.num 1)], renderCount := 0 }
        "x" (JSValue.num 1)) "x" (JSValue.num 1)).renderCount ≠ 1 := by
  decide

/-- C2 (amended): every write through the component's state proxy
triggers exactly one render regardless of value equality (so two equal
writes trigger two renders); the standalone `reactive()` helper in
reactivity.js, by contrast, suppresses its change callback when the new
value equals the stored one. -/
theorem claim_C2_amended (c : Component) (k : String) (v : JSValue)
    (t : List (String × JSValue)) :
    (proxySet c k v).renderCount = c.renderCount + 1 ∧
    (proxySet (proxySet c k v) k v).renderCount = c.renderCount + 2 ∧
    (reactiveSet (reactiveSet t k v).1 k v).2 = false := by
  refine ⟨rfl, rfl, ?_⟩
  simp [reactiveSet, lookupKey_setKey_self]

/-- C3 (confirmed): for a group shaped `data-if`, `data-else-if`*,
trailing `data-else`, a render pass attaches exactly the first member
whose evaluation (in source order, throw-as-false, `data-else` as
always-true fallback) is truthy, and every other member sits as its
placeholder — so exactly one member is attached. -/
theorem claim_C3_conditional_exclusivity (st : List (String × JSValue))
    (g : List CondMember) (hne : g ≠ [])
    (_hfirst : (g.head hne).kind = CondKind.condIf)
    (_hmid : ∀ i (h : i < g.length), 0 < i → i + 1 < g.length →
        (g.get ⟨i, h⟩).kind = CondKind.condElseIf)
    (hlast : (g.getLast hne).kind = CondKind.condElse) :
    g.findIdx (memberTruthy st) < g.length ∧
    applyConditionals st g
      = (List.range g.length).map
          (fun i => if i = g.findIdx (memberTruthy st) then Slot.attached
                    else Slot.placeholder) ∧
    (applyConditionals st g).count Slot.attached = 1 := by
  have hex : ∃ m ∈ g, memberTruthy st m = true :=
    ⟨g.getLast hne, List.getLast_mem hne, memberTruthy_else st _ hlast⟩
  have hsel : g.findIdx (memberTruthy st) < g.length :=
    List.findIdx_lt_length_of_exists hex
  refine ⟨hsel, applyGroup_false_eq st g hex, ?_⟩
  rw [applyConditionals, applyGroup_false_eq st g hex]
  exact count_attached_map_range _ _ hsel

/-- C3 witness: the spec's demo group at `count = 7` — the second member
(`count<10`) is the unique attached one. -/
theorem claim_C3_witness :
    demoCondGroup.findIdx (memberTruthy demoCondState) < demoCondGroup.length ∧
    applyConditionals demoCondState demoCondGroup
      = (List.range demoCondGroup.length).map
          (fun i => if i = demoCondGroup.findIdx (memberTruthy demoCondState)
                    then Slot.attached else Slot.placeholder) ∧
    (applyConditionals demoCondState demoCondGroup).count Slot.attached = 1 :=
  claim_C3_conditional_exclusivity demoCondState demoCondGroup
    (by simp [demoCondGroup])
    (by rfl)
    (by
      intro i h h0 h1
      have hi : i = 1 := by simp [demoCondGroup] at h1; omega
      subst hi
      rfl)
    (by rfl)

/-- C4 (confirmed): with a fixed state snapshot, a second render pass is
a no-op on the DOM — conditional slots, text slots, attributes and
two-way element contents are all left exactly as the first pass put
them. -/
theorem claim_C4_render_idempotent (fnEval : Nat → Option JSValue)
    (b : BindingTables) (st : List (String × JSValue)) (d : Dom) :
    renderPass fnEval b st (renderPass fnEval b st d)
      = renderPass fnEval b st d :=
  renderPass_idem fnEval b st d

/-- C5 (counterexample): `setState` with a two-key object triggers three
renders (one per key through the proxy `set` trap, plus the explicit
final `_render()`), not one. -/
theorem claim_C5_counterexample :
    (setState { state := [], renderCount := 0 }
        [("a", JSValue.num 1), ("b", JSValue.num 2)]).renderCount = 3 ∧
    (setState { state := [], renderCount := 0 }
        [("a", JSValue.num 1), ("b", JSValue.num 2)]).renderCount ≠ 1 := by
  decide

/-- C5 (amended): `setState(partial)` merges all n pairs (in order,
last write per key winning) and triggers exactly n + 1 renders: one per
key via the proxy trap plus the final explicit render. -/
theorem claim_C5_amended (c : Component) (pairs : List (String × JSValue)) :
    (setState c pairs).renderCount = c.renderCount + pairs.length + 1 ∧
    (setState c pairs).state
      = pairs.foldl (fun acc kv => setKey acc kv.1 kv.2) c.state :=
  ⟨setState_renderCount c pairs, setState_state c pairs⟩

/-- C6 (counterexample): with `inc` stored only in state, a bare-identifier
`onclick="inc"` is classified as a Case-3 named handler, but dispatch
resolves only `this.inc`, finds nothing, and warns — the state method is
never consulted, contradicting the claimed fallback. -/
theorem claim_C6_counterexample :
    classifyHandler "inc" = HandlerCase.named ∧
    lookupKey demoC6Env.state "inc" = some (JSValue.fn 7) ∧
    dispatchNamed demoC6Env "inc" = DispatchOutcome.warnedMissing ∧
    dispatchNamed demoC6Env "inc" ≠ DispatchOutcome.invoked 7 := by
  decide

/-- C6 (amended): a bare-identifier handler resolves only through the
instance (`this[name]`): when no instance property of that name exists, a
warning is logged and nothing is invoked even if a function of that name
sits in state — only the call-expression case (Case 2) falls back to
`this.state[funcName]`. -/
theorem claim_C6_amended (env : CompEnv) (name : String) (fid : Nat)
    (h1 : lookupKey env.instProps name = none)
    (h2 : lookupKey env.state name = some (JSValue.fn fid)) :
    dispatchNamed env name = DispatchOutcome.warnedMissing ∧
    resolveCallFn env name = JSValue.fn fid := by
  constructor
  · simp [dispatchNamed, h1]
  · simp [resolveCallFn, h1, truthy, h2]

/-- C6 witness: the amended claim at the concrete demo component. -/
theorem claim_C6_witness :
    dispatchNamed demoC6Env "inc" = DispatchOutcome.warnedMissing ∧
    resolveCallFn demoC6Env "inc" = JSValue.fn 7 :=
  claim_C6_amended demoC6Env "inc" 7 (by decide) (by decide)

/-- C7 (counterexample): a group whose `data-if` expression throws renders
with that member treated as false (the `data-else` member is attached) —
but the logger trace of the pass is empty: the catch block
`catch \x7b shouldShow = false; \x7d` logs nothing, contradicting "the failure
is logged". -/
theorem claim_C7_counterexample :
    (applyConditionalsLog demoCondState demoThrowGroup).1
      = [Slot.placeholder, Slot.attached] ∧
    (applyConditionalsLog demoCondState demoThrowGroup).2 = [] := by
  constructor <;> rfl

/-- C7 (amended): a throwing conditional expression is caught
per-evaluation and the member treated as if its expression were false,
and the exception never escapes the render pass — but the failure is
silently swallowed, never logged (the instrumented pass emits an empty
trace on every input). -/
theorem claim_C7_amended (st : List (String × JSValue))
    (g : List CondMember) (matched : Bool) (m : CondMember)
    (e : List (String × JSValue) → Option JSValue)
    (hk : m.kind ≠ CondKind.condElse) (he : m.expr = some e)
    (hthrow : e st = none) :
    (applyConditionalsLog st g).1 = applyConditionals st g ∧
    (applyConditionalsLog st g).2 = [] ∧
    shouldShow st matched m = false := by
  refine ⟨?_, ?_, ?_⟩
  · rw [applyConditionalsLog, applyConditionals, applyGroupLog_eq]
  · rw [applyConditionalsLog, applyGroupLog_eq]
  · cases m with
    | mk kind expr =>
        cases kind <;> simp_all [shouldShow]

/-- C7 witness: the amended claim at the throwing demo group. -/
theorem claim_C7_witness :
    (applyConditionalsLog demoCondState demoThrowGroup).1
      = applyConditionals demoCondState demoThrowGroup ∧
    (applyConditionalsLog demoCondState demoThrowGroup).2 = [] ∧
    shouldShow demoCondState true ⟨CondKind.condIf, some demoThrowExpr⟩ = false :=
  claim_C7_amended demoCondState demoThrowGroup true
    ⟨CondKind.condIf, some demoThrowExpr⟩ demoThrowExpr
    (by decide) rfl rfl

/-- C8 (counterexample): two `registerComponent("x", "/a.html")` calls
whose synchronous prefixes both run before either fetch resolves (the
meaning of concurrent invocation in the single-threaded model) perform
two network fetches, not one — there is no in-flight memo. -/
theorem claim_C8_counterexample :
    (concurrentRegister demoReg0 "x" "x" "/a.html" "<p>c</p>").fetchCount = 2 ∧
    (concurrentRegister demoReg0 "x" "x" "/a.html" "<p>c</p>").fetchCount ≠ 1 := by
  decide

/-- C8 (amended): with the path uncached and the names unregistered, two
concurrent calls for the same path fetch twice (one per call), while
sequential invocation fetches exactly once — the second call is served by
the source cache (or skipped as already registered). -/
theorem claim_C8_amended (g : RegistryState) (n1 n2 p body : String)
    (hc : lookupKey g.sourceCache p = none)
    (h1 : n1 ∉ g.registered) (h2 : n2 ∉ g.registered) :
    (concurrentRegister g n1 n2 p body).fetchCount = g.fetchCount + 2 ∧
    (sequentialRegister g n1 n2 p body).fetchCount = g.fetchCount + 1 := by
  have h1s : registerStart g n1 p
      = ({ g with fetchCount := g.fetchCount + 1 }, RegPhase.awaitingFetch) := by
    simp [registerStart, h1, hc]
  constructor
  · have h2s : registerStart { g with fetchCount := g.fetchCount + 1 } n2 p
        = ({ g with fetchCount := g.fetchCount + 1 + 1 },
           RegPhase.awaitingFetch) := by
      simp [registerStart, h2, hc]
    simp [concurrentRegister, h1s, h2s, registerResume]
  · simp only [sequentialRegister, h1s]
    have hres : registerResume { g with fetchCount := g.fetchCount + 1 } n1 p body
        = { registered := g.registered ++ [n1],
            sourceCache := setKey g.sourceCache p body,
            fetchCount := g.fetchCount + 1 } := rfl
    simp only [if_pos rfl, hres]
    by_cases hn : n2 ∈ g.registered ++ [n1]
    · have h2s : registerStart
          { registered := g.registered ++ [n1],
            sourceCache := setKey g.sourceCache p body,
            fetchCount := g.fetchCount + 1 } n2 p
          = ({ registered := g.registered ++ [n1],
               sourceCache := setKey g.sourceCache p body,
               fetchCount := g.fetchCount + 1 }, RegPhase.completed) := by
        simp [registerStart, hn]
      simp [h2s]
    · have h2s : registerStart
          { registered := g.registered ++ [n1],
            sourceCache := setKey g.sourceCache p body,
            fetchCount := g.fetchCount + 1 } n2 p
          = ({ registered := (g.registered ++ [n1]) ++ [n2],
               sourceCache := setKey g.sourceCache p body,
               fetchCount := g.fetchCount + 1 }, RegPhase.completed) := by
        simp [registerStart, hn, lookupKey_setKey_self]
      simp [h2s]

/-- C8 witness: the amended claim at the concrete registry and path. -/
theorem claim_C8_witness :
    (concurrentRegister demoReg0 "x" "x" "/a.html" "body").fetchCount
      = demoReg0.fetchCount + 2 ∧
    (sequentialRegister demoReg0 "x" "x" "/a.html" "body").fetchCount
      = demoReg0.fetchCount + 1 :=
  claim_C8_amended demoReg0 "x" "x" "/a.html" "body" (by decide) (by decide)
    (by decide)

/-- C9 (confirmed): attribute values are converted by the fixed total
function `#parseAttributeValue` — `""` to `null`, `"undefined"` to
`undefined`, a successful `JSON.parse` to the parsed value (so `"5"`
becomes the number 5), anything else kept as the raw string — and
`_handleAttributeChange` stores exactly that converted value in state
under the (prefix-stripped) attribute name. -/
theorem claim_C9_attribute_parse (jp : String → Option JSValue)
    (c : Component) (name raw : String)
    (h1 : raw ≠ "") (h2 : raw ≠ "undefined") :
    parseAttributeValue jp "" = JSValue.null ∧
    parseAttributeValue jp "undefined" = JSValue.undefVal ∧
    parseAttributeValue jp raw
      = (match jp raw with | some v => v | none => JSValue.str raw) ∧
    lookupKey (handleAttributeChange jp c name raw).state (stripStateKey name)
      = some (parseAttributeValue jp raw) ∧
    parseAttributeValue jsonParseModel "5" = JSValue.num 5 := by
  refine ⟨rfl, by simp [parseAttributeValue], ?_, ?_, by decide⟩
  · simp [parseAttributeValue, h1, h2]
  · simp [handleAttributeChange, proxySet, lookupKey_setKey_self]

/-- C9 witness: the concrete attribute write `count="5"` seeds the state
with the number 5. -/
theorem claim_C9_witness :
    parseAttributeValue jsonParseModel "" = JSValue.null ∧
    parseAttributeValue jsonParseModel "undefined" = JSValue.undefVal ∧
    parseAttributeValue jsonParseModel "5"
      = (match jsonParseModel "5" with
         | some v => v
         | none => JSValue.str "5") ∧
    lookupKey (handleAttributeChange jsonParseModel
        { state := [], renderCount := 0 } "count" "5").state
        (stripStateKey "count")
      = some (parseAttributeValue jsonParseModel "5") ∧
    parseAttributeValue jsonParseModel "5" = JSValue.num 5 :=
  claim_C9_attribute_parse jsonParseModel { state := [], renderCount := 0 }
    "count" "5" (by decide) (by decide)

/-- C10 (confirmed): `listen` attaches its wrapper to the global
`document` (target `.doc`, not the instance root) and records it in the
instance's `_eventBindings`; an `emit` of that event name from any
instance reaches the handler with the event's `detail` (the emitter's
state when the detail is omitted or nullish); and `disconnectedCallback`
removes the listener, restoring the document's listener list. -/
theorem claim_C10_listen_document (page : Page) (instA instB : InstView)
    (name : String) (handlerId listenerId : Nat) (detail : Option JSValue)
    (hfresh : ∀ l ∈ page.docListeners, l.listenerId ≠ listenerId)
    (hclean : instA.eventBindings = []) :
    (listen page instA name handlerId listenerId).2.eventBindings
      = [⟨EvtTarget.doc, name, listenerId⟩] ∧
    (handlerId, emitData instB detail)
      ∈ emitInvocations (listen page instA name handlerId listenerId).1
          instB name detail ∧
    (disconnectInst (listen page instA name handlerId listenerId).1
        (listen page instA name handlerId listenerId).2).1.docListeners
      = page.docListeners ∧
    (disconnectInst (listen page instA name handlerId listenerId).1
        (listen page instA name handlerId listenerId).2).2.eventBindings
      = [] := by
  refine ⟨by simp [listen, hclean], ?_, ?_, by simp [disconnectInst]⟩
  · simp [listen, emitInvocations, List.filter_append]
  · simp only [disconnectInst, listen, hclean, List.nil_append,
      List.filter_append]
    have hone : ([(⟨name, listenerId, handlerId⟩ : DocListenerRec)].filter
        (fun l => !([(⟨EvtTarget.doc, name, listenerId⟩ : EventBindingRec)].any
          (fun b => decide (b.target = EvtTarget.doc) &&
            decide (b.event = l.event) && decide (b.listenerId = l.listenerId)))))
        = [] := by simp
    have hmain : page.docListeners.filter
        (fun l => !([(⟨EvtTarget.doc, name, listenerId⟩ : EventBindingRec)].any
          (fun b => decide (b.target = EvtTarget.doc) &&
            decide (b.event = l.event) && decide (b.listenerId = l.listenerId))))
        = page.docListeners := by
      rw [List.filter_eq_self]
      intro l hl
      simp only [List.any_cons, List.any_nil, Bool.or_false, Bool.not_eq_true',
        Bool.and_eq_false_iff, decide_eq_false_iff_not, decide_eq_true_eq]
      simp
      exact Or.inr (fun h => hfresh l hl h.symm)
    rw [hone, hmain, List.append_nil]

/-- C10 witness: instance A listens for `"saved"`; an emit from instance B
with detail `3` reaches the handler; disconnecting A restores the page's
original listener list. -/
theorem claim_C10_witness :
    (listen demoPageC10 demoInstA "saved" 9 2).2.eventBindings
      = [⟨EvtTarget.doc, "saved", 2⟩] ∧
    (9, emitData demoInstB (some (JSValue.num 3)))
      ∈ emitInvocations (listen demoPageC10 demoInstA "saved" 9 2).1
          demoInstB "saved" (some (JSValue.num 3)) ∧
    (disconnectInst (listen demoPageC10 demoInstA "saved" 9 2).1
        (listen demoPageC10 demoInstA "saved" 9 2).2).1.docListeners
      = demoPageC10.docListeners ∧
    (disconnectInst (listen demoPageC10 demoInstA "saved" 9 2).1
        (listen demoPageC10 demoInstA "saved" 9 2).2).2.eventBindings = [] :=
  claim_C10_listen_document demoPageC10 demoInstA demoInstB "saved" 9 2
    (some (JSValue.num 3)) (by decide) rfl

end Ladrillos
